import Mathlib

/-!
Verification development for the IDB options pricer repository.

The frontend store logic (`frontend/src/stores/pricerStore.ts`), the
Add-Order serialization (`AddOrderButton`), the blotter recall path and the
pricing grid shape are embedded here as executable Lean functions over an
explicit state type.  JavaScript numbers are modelled as exact rationals;
table cells typed `number | string` in TypeScript are modelled by the sum
type `JSVal` (with `nan` standing for the JS `NaN`).  The backend structure
aggregator and Black-Scholes engine are not part of the repository snapshot,
so they are modelled from the specification text (see the doc comments that
start with "Modelled from the spec").
-/

namespace OptionsPricer

/-- JavaScript-style cell value: the TypeScript `LegRow` types `strike` and
`ratio` as `number | string`; `nan` models the JS number `NaN`. -/
inductive JSVal where
  | num (q : ℚ)
  | str (s : String)
  | nan
deriving DecidableEq

/-- Whitespace test used by the JS `trim`/`Number` embeddings. -/
def isWsChar (c : Char) : Bool :=
  c = ' ' || c = '\t' || c = '\n' || c = '\r'

/-- Drop leading whitespace of a character list. -/
def dropWs (l : List Char) : List Char := l.dropWhile isWsChar

/-- Trim whitespace from both ends of a character list. -/
def trimChars (l : List Char) : List Char :=
  ((l.dropWhile isWsChar).reverse.dropWhile isWsChar).reverse

/-- Embedding of the JS `s.trim()` method (kernel-friendly, list-based). -/
def jsTrim (s : String) : String := String.mk (trimChars s.data)

/-- Is the second list a leading segment of the first? -/
def leadsWith : List Char → List Char → Bool
  | _, [] => true
  | [], _ :: _ => false
  | a :: as, b :: bs => b = a && leadsWith as bs

/-- Embedding of the JS `s.startsWith(p)` method. -/
def strStartsWith (s p : String) : Bool := leadsWith s.data p.data

/-- Embedding of the JS `s.toLowerCase()` method. -/
def jsToLower (s : String) : String := String.mk (s.data.map Char.toLower)

/-- Embedding of the JS `s.toUpperCase()` method. -/
def jsToUpper (s : String) : String := String.mk (s.data.map Char.toUpper)

/-- Embedding of the JS `s.replace(/ /g, '_')` call. -/
def underscoreSpaces (s : String) : String :=
  String.mk (s.data.map (fun c => if c = ' ' then '_' else c))

/-- Embedding of the JS `s.slice(0, n)` call. -/
def strTake (s : String) (n : ℕ) : String := String.mk (s.data.take n)

/-- Embedding of the JS `s.slice(n)` call. -/
def strDrop (s : String) (n : ℕ) : String := String.mk (s.data.drop n)

/-- Numeric value of a decimal digit string, most significant digit first. -/
def digitsToNat (l : List Char) : ℕ :=
  l.foldl (fun a c => a * 10 + (c.toNat - 48)) 0

/-- Render the decimal digits of a natural number (fuel-based, most
significant digit first); the accumulator is appended after the digits. -/
def natDigitsAux : ℕ → ℕ → List Char → List Char
  | 0, _, acc => acc
  | fuel + 1, n, acc =>
    let d := Char.ofNat (48 + n % 10)
    if n < 10 then d :: acc else natDigitsAux fuel (n / 10) (d :: acc)

/-- Decimal digit list of a natural number. -/
def natDigits (n : ℕ) : List Char := natDigitsAux (n + 1) n []

/-- Decimal digit string of a natural number. -/
def natDigitStr (n : ℕ) : String := String.mk (natDigits n)

/-- Embedding of the JS `String(i)` conversion for integral numbers. -/
def intToString (i : ℤ) : String :=
  (if i < 0 then "-" else "") ++ natDigitStr i.natAbs

/-- Shape phase of the decimal parser: optional sign, integer digits,
optional point and fraction digits.  Returns the sign, the integer digit
characters, the fraction digit characters and the unconsumed suffix;
`none` when no digits at all were found (the JS `NaN` outcome). -/
def parseShapeCore (neg : Bool) (cs : List Char) :
    Option (Bool × List Char × List Char × List Char) :=
  let ip := cs.takeWhile Char.isDigit
  let rest := cs.dropWhile Char.isDigit
  let frac : List Char × List Char :=
    match rest with
    | [] => ([], [])
    | c :: r => if c = '.' then (r.takeWhile Char.isDigit, r.dropWhile Char.isDigit)
        else ([], c :: r)
  if ip = [] ∧ frac.1 = [] then none
  else some (neg, ip, frac.1, frac.2)

/-- Sign dispatch of the shape parser. -/
def parseShape (cs : List Char) : Option (Bool × List Char × List Char × List Char) :=
  match cs with
  | [] => parseShapeCore false []
  | c :: r =>
    if c = '-' then parseShapeCore true r
    else if c = '+' then parseShapeCore false r
    else parseShapeCore false (c :: r)

/-- Value phase of the decimal parser: `±(ip + fp / 10 ^ fp.length)`. -/
def assembleDec (sign : Bool) (ip fp : List Char) : ℚ :=
  let mag : ℚ := (digitsToNat ip : ℚ) + (digitsToNat fp : ℚ) / (10 : ℚ) ^ fp.length
  if sign then -mag else mag

/-- Core numeric-prefix parser shared by the `parseFloat` and `Number`
embeddings: optional sign, integer digits, optional fraction digits.
Returns the parsed value and the unconsumed suffix; `none` when no digits
at all were found (the JS `NaN` outcome). -/
def parseDecCore (cs : List Char) : Option (ℚ × List Char) :=
  (parseShape cs).map (fun t => (assembleDec t.1 t.2.1 t.2.2.1, t.2.2.2))

/-- Embedding of JS `parseFloat`: skip leading whitespace, parse the longest
numeric prefix, `none` for the `NaN` outcome.  Exponent notation is not
produced or consumed anywhere in the frontend and is not modelled. -/
def parseFloatJS (s : String) : Option ℚ :=
  (parseDecCore (dropWs s.data)).map Prod.fst

/-- Embedding of JS `parseInt` (radix 10): skip leading whitespace, optional
sign, integer digits only; `none` for the `NaN` outcome. -/
def parseIntJS (s : String) : Option ℤ :=
  let cs := dropWs s.data
  let sign : Bool × List Char :=
    match cs with
    | [] => (false, [])
    | c :: r => if c = '-' then (true, r) else if c = '+' then (false, r) else (false, c :: r)
  let ip := sign.2.takeWhile Char.isDigit
  if ip = [] then none
  else some (if sign.1 then -(digitsToNat ip : ℤ) else (digitsToNat ip : ℤ))

/-- Embedding of the JS `String(x)` conversion for a finite number: the
shortest plain decimal representation.  The search finds the least `k` with
`x * 10 ^ k` integral (every number the frontend handles is a finite decimal,
for which such a `k` exists and is at most the denominator). -/
def ratToString (v : ℚ) : String :=
  match (List.range (v.den + 1)).find? (fun k => (v * (10 : ℚ) ^ k).den == 1) with
  | none => "NaN"
  | some k =>
    let m : ℤ := (v * (10 : ℚ) ^ k).num
    let d0 : List Char := natDigits m.natAbs
    let ds : List Char := List.replicate (k + 1 - d0.length) '0' ++ d0
    let ip : List Char := ds.take (ds.length - k)
    let fp : List Char := ds.drop (ds.length - k)
    (if m < 0 then "-" else "") ++ String.mk ip ++
      (if k = 0 then "" else "." ++ String.mk fp)

/-- Embedding of the JS `String(x)` conversion where `x` may be `NaN`. -/
def numToString (o : Option ℚ) : String :=
  match o with
  | none => "NaN"
  | some q => ratToString q

/-- Embedding of JS `x.toFixed(2)`: the integer `n` closest to `x * 100`
(ties towards `+∞`), rendered with exactly two decimals. -/
def toFixed2 (v : ℚ) : String :=
  let m : ℤ := ⌊v * 100 + 1 / 2⌋
  let d0 : List Char := natDigits m.natAbs
  let ds : List Char := List.replicate (3 - d0.length) '0' ++ d0
  (if m < 0 then "-" else "") ++ String.mk (ds.take (ds.length - 2)) ++ "." ++
    String.mk (ds.drop (ds.length - 2))

/-- Embedding of the JS `Number(x)` coercion on a `number | string` cell:
a number maps to itself, the empty / all-whitespace string to `0`, any other
string must parse in full as a signed decimal; `none` models `NaN`. -/
def jsNumber (v : JSVal) : Option ℚ :=
  match v with
  | JSVal.num q => some q
  | JSVal.nan => none
  | JSVal.str s =>
    let t := trimChars s.data
    if t = [] then some 0
    else match parseDecCore t with
      | some (q, []) => some q
      | _ => none

/-- Embedding of the JS unary minus after a `Number` coercion
(`-Number(x)`); the result is a number, possibly `NaN`. -/
def jsNeg (v : JSVal) : JSVal :=
  match jsNumber v with
  | some q => JSVal.num (-q)
  | none => JSVal.nan

/-- Embedding of the JS `a || b` idiom on an optional string field. -/
def jsOrStr (v : Option String) (d : String) : String :=
  match v with
  | none => d
  | some s => if s = "" then d else s

/-- Embedding of the JS `x || undefined` idiom after a numeric parse:
`NaN` and `0` both collapse to `undefined`. -/
def optNonzero (o : Option ℚ) : Option ℚ :=
  match o with
  | some v => if v = 0 then none else some v
  | none => none

/-- Embedding of the JS `x || undefined` idiom after `parseInt`. -/
def optNonzeroInt (o : Option ℤ) : Option ℤ :=
  match o with
  | some v => if v = 0 then none else some v
  | none => none

/-- One row of the pricing table (`LegRow` in `types/index.ts`): `strike` and
`ratio` are `number | string`, the quote columns are display strings. -/
structure LegRow where
  leg : String
  expiry : String
  strike : JSVal
  type : String
  ratio : JSVal
  bid_size : String
  bid : String
  mid : String
  offer : String
  offer_size : String
deriving DecidableEq

/-- `OrderHeader` in `types/index.ts`. -/
structure OrderHeader where
  underlying : String
  structure_name : String
  stock_ref : ℚ
  stock_price : ℚ
  delta : ℚ
deriving DecidableEq

/-- `BrokerQuote` in `types/index.ts`; `none` models `null`. -/
structure BrokerQuote where
  broker_price : ℚ
  quote_side : String
  screen_mid : Option ℚ
  edge : Option ℚ
deriving DecidableEq

/-- `CurrentStructure` in `types/index.ts`; the five quote fields are
`number | null`, modelled as `Option ℚ`. -/
structure CurrentStructure where
  underlying : String
  structure_name : String
  structure_detail : String
  bid : Option ℚ
  mid : Option ℚ
  offer : Option ℚ
  bid_size : Option ℚ
  offer_size : Option ℚ
  multiplier : ℚ
deriving DecidableEq

/-- `PriceResponse` in `types/index.ts`. -/
structure PriceResponse where
  table_data : List LegRow
  header : OrderHeader
  broker_quote : Option BrokerQuote
  current_structure : CurrentStructure
deriving DecidableEq

/-- `ParsedLeg` in `types/index.ts`. -/
structure ParsedLeg where
  underlying : String
  expiry : String
  strike : ℚ
  option_type : String
  side : String
  quantity : ℚ
  ratio : ℚ
deriving DecidableEq

/-- `ParseResponse` in `types/index.ts` (the `/api/parse` result). -/
structure ParseResponse where
  underlying : String
  structure_name : String
  legs : List ParsedLeg
  stock_ref : ℚ
  delta : ℚ
  price : ℚ
  quote_side : String
  quantity : ℚ
  raw_text : String
deriving DecidableEq

/-- `BlotterOrder` in `types/index.ts`.  The optional recall fields named
`_table_data`, `_underlying`, ... in TypeScript are modelled as the
`rec_`-prefixed fields here (Lean identifiers cannot begin with `_`). -/
structure BlotterOrder where
  id : String
  added_time : String
  underlying : String
  «structure» : String
  bid : String
  mid : String
  offer : String
  bid_size : String
  offer_size : String
  side : String
  size : String
  traded : String
  bought_sold : String
  traded_price : String
  initiator : String
  pnl : String
  multiplier : ℚ
  rec_table_data : Option (List LegRow)
  rec_underlying : Option String
  rec_structure_type : Option String
  rec_stock_ref : Option ℚ
  rec_delta : Option ℚ
  rec_broker_price : Option ℚ
  rec_quote_side : Option String
  rec_quantity : Option ℤ
  rec_current_structure : Option CurrentStructure
deriving DecidableEq

/-- The pricer store state (`PricerState` in `pricerStore.ts`, data fields
only; the actions are the functions below). -/
structure PricerState where
  orderText : String
  tableData : List LegRow
  header : Option OrderHeader
  brokerQuote : Option BrokerQuote
  currentStructure : Option CurrentStructure
  parseError : String
  tableError : String
  underlying : String
  structureType : String
  stockRef : String
  delta : String
  brokerPrice : String
  quoteSide : String
  quantity : String
  loading : Bool
deriving DecidableEq

/-- A `{ type, ratio }` entry of the `STRUCTURE_TEMPLATES` table. -/
structure TemplateLeg where
  type : String
  ratio : ℚ
deriving DecidableEq

/-- The fixed `STRUCTURE_TEMPLATES` table of `pricerStore.ts`: structure tag
to canonical ordered leg list; `none` for an unrecognized tag. -/
def STRUCTURE_TEMPLATES (tag : String) : Option (List TemplateLeg) :=
  match tag with
  | "call" => some [⟨"C", 1⟩]
  | "put" => some [⟨"P", 1⟩]
  | "put_spread" => some [⟨"P", 1⟩, ⟨"P", -1⟩]
  | "call_spread" => some [⟨"C", 1⟩, ⟨"C", -1⟩]
  | "risk_reversal" => some [⟨"P", -1⟩, ⟨"C", 1⟩]
  | "straddle" => some [⟨"C", 1⟩, ⟨"P", 1⟩]
  | "strangle" => some [⟨"P", 1⟩, ⟨"C", 1⟩]
  | "butterfly" => some [⟨"C", 1⟩, ⟨"C", -2⟩, ⟨"C", 1⟩]
  | "put_fly" => some [⟨"P", 1⟩, ⟨"P", -2⟩, ⟨"P", 1⟩]
  | "call_fly" => some [⟨"C", 1⟩, ⟨"C", -2⟩, ⟨"C", 1⟩]
  | "iron_butterfly" => some [⟨"P", 1⟩, ⟨"P", -1⟩, ⟨"C", -1⟩, ⟨"C", 1⟩]
  | "iron_condor" => some [⟨"P", 1⟩, ⟨"P", -1⟩, ⟨"C", -1⟩, ⟨"C", 1⟩]
  | "put_condor" => some [⟨"P", 1⟩, ⟨"P", -1⟩, ⟨"P", -1⟩, ⟨"P", 1⟩]
  | "call_condor" => some [⟨"C", 1⟩, ⟨"C", -1⟩, ⟨"C", -1⟩, ⟨"C", 1⟩]
  | "collar" => some [⟨"P", 1⟩, ⟨"C", -1⟩]
  | "call_spread_collar" => some [⟨"P", 1⟩, ⟨"C", -1⟩, ⟨"C", 1⟩]
  | "put_spread_collar" => some [⟨"P", -1⟩, ⟨"P", 1⟩, ⟨"C", -1⟩]
  | "put_stupid" => some [⟨"P", 1⟩, ⟨"P", 1⟩]
  | "call_stupid" => some [⟨"C", 1⟩, ⟨"C", 1⟩]
  | _ => none

/-- `emptyRow(i)` of `pricerStore.ts`: a blank leg row labelled `Leg i`
(in the source `strike` is the empty string and `ratio` the number `1`). -/
def emptyRow (i : ℕ) : LegRow :=
  { leg := "Leg " ++ natDigitStr i
    expiry := ""
    strike := JSVal.str ""
    type := ""
    ratio := JSVal.num 1
    bid_size := ""
    bid := ""
    mid := ""
    offer := ""
    offer_size := "" }

/-- The `applyTemplate` action of `pricerStore.ts`: an unknown tag leaves the
state unchanged; a known tag replaces the table by the template's leg rows
(blank rows carrying the template's type and signed ratio) and records the
structure type. -/
def applyTemplate (s : PricerState) (tag : String) : PricerState :=
  match STRUCTURE_TEMPLATES tag with
  | none => s
  | some tpl =>
    { s with
      tableData := tpl.enum.map
        (fun p => { emptyRow (p.1 + 1) with type := p.2.type, ratio := JSVal.num p.2.ratio })
      structureType := tag }

/-- The `applyPriceResponse` action of `pricerStore.ts`: splits the response
table into leg rows and the (first) `Structure` row, re-appending the latter
at the end, and installs the header, broker quote and current structure. -/
def applyPriceResponse (s : PricerState) (res : PriceResponse) : PricerState :=
  let legRows := res.table_data.filter (fun r => r.leg != "Structure")
  let structRow := res.table_data.find? (fun r => r.leg == "Structure")
  { s with
    tableData := match structRow with
      | some r => legRows ++ [r]
      | none => legRows
    header := some res.header
    brokerQuote := res.broker_quote
    currentStructure := some res.current_structure }

/-- The `addRow` action of `pricerStore.ts`. -/
def addRow (s : PricerState) : PricerState :=
  let rows := s.tableData.filter (fun r => r.leg != "Structure")
  { s with tableData := rows ++ [emptyRow (rows.length + 1)] }

/-- The `removeRow` action of `pricerStore.ts`. -/
def removeRow (s : PricerState) : PricerState :=
  let rows := s.tableData.filter (fun r => r.leg != "Structure")
  { s with tableData := if rows.length > 1 then rows.dropLast else rows }

/-- The per-row transform of `flipStructure`: a `Leg` row whose ratio is
strictly unequal (in the JS `!==` sense) to both `''` and `0` gets its ratio
replaced by `-Number(ratio)`; every other row is untouched. -/
def flipRow (row : LegRow) : LegRow :=
  if strStartsWith row.leg "Leg" = true ∧ row.ratio ≠ JSVal.str "" ∧ row.ratio ≠ JSVal.num 0 then
    { row with ratio := jsNeg row.ratio }
  else row

/-- The synchronous state change of the `flipStructure` action of
`pricerStore.ts` (the follow-up `repriceFromTable` network call is a separate
action).  The delta field becomes `String(-parseFloat(delta))` when the old
delta string is non-empty, `''` otherwise. -/
def flipStructure (s : PricerState) : PricerState :=
  { s with
    tableData := s.tableData.map flipRow
    delta := if s.delta ≠ "" then numToString ((parseFloatJS s.delta).map (fun q => -q)) else "" }

/-- The `clearAll` action of `pricerStore.ts`. -/
def clearAll (s : PricerState) : PricerState :=
  { s with
    orderText := ""
    tableData := [emptyRow 1, emptyRow 2]
    header := none
    brokerQuote := none
    currentStructure := none
    parseError := ""
    tableError := ""
    underlying := ""
    structureType := ""
    stockRef := ""
    delta := ""
    brokerPrice := ""
    quoteSide := "bid"
    quantity := "" }

/-- The `recallOrder` action of `pricerStore.ts`: restores the pricer state
stored on a blotter order (no-op when the order carries no `_table_data`). -/
def recallOrder (s : PricerState) (o : BlotterOrder) : PricerState :=
  match o.rec_table_data with
  | none => s
  | some td =>
    { s with
      tableData := td
      underlying := jsOrStr o.rec_underlying ""
      structureType := jsOrStr o.rec_structure_type ""
      stockRef := match o.rec_stock_ref with
        | some v => ratToString v
        | none => ""
      delta := match o.rec_delta with
        | some v => ratToString v
        | none => ""
      brokerPrice := match o.rec_broker_price with
        | some v => ratToString v
        | none => ""
      quoteSide := jsOrStr o.rec_quote_side "bid"
      quantity := match o.rec_quantity with
        | some n => intToString n
        | none => ""
      currentStructure := o.rec_current_structure
      header := match o.rec_current_structure with
        | some cs => some
            { underlying := cs.underlying
              structure_name := cs.structure_name
              stock_ref := (o.rec_stock_ref).getD 0
              stock_price := 0
              delta := (o.rec_delta).getD 0 }
        | none => none
      brokerQuote := match o.rec_broker_price, o.rec_current_structure with
        | some bp, some cs =>
          match cs.mid with
          | some m =>
            if 0 < bp then
              some { broker_price := bp
                     quote_side := jsToUpper (jsOrStr o.rec_quote_side "bid")
                     screen_mid := some m
                     edge := some (bp - m) }
            else none
          | none => none
        | _, _ => none
      parseError := ""
      tableError := "" }

/-- The `parseAndPrice` action of `pricerStore.ts`, with the two network
calls (`/api/parse` then `/api/price`) abstracted as their combined outcome:
either both results or the thrown error message. -/
def parseAndPrice (s : PricerState) (api : Except String (ParseResponse × PriceResponse)) :
    PricerState :=
  if jsTrim s.orderText = "" then { s with parseError := "Please enter an order." }
  else
    match api with
    | Except.error msg => { s with loading := false, parseError := msg, tableError := "" }
    | Except.ok pr =>
      let parsed := pr.1
      let structName := underscoreSpaces (jsToLower parsed.structure_name)
      let s1 :=
        { s with
          loading := false
          parseError := ""
          tableError := ""
          underlying := parsed.underlying
          structureType := if (STRUCTURE_TEMPLATES structName).isSome then structName else ""
          stockRef := if 0 < parsed.stock_ref then ratToString parsed.stock_ref else ""
          delta := if parsed.delta ≠ 0 then ratToString parsed.delta else ""
          brokerPrice := if 0 < parsed.price then ratToString parsed.price else ""
          quoteSide := parsed.quote_side
          quantity := if 0 < parsed.quantity then ratToString parsed.quantity else "" }
      applyPriceResponse s1 pr.2

/-- One leg of a `/api/price` request built by `repriceFromTable`. -/
structure ApiLeg where
  expiry : String
  strike : ℚ
  option_type : String
  side : String
  quantity : ℚ
  ratio : ℚ
deriving DecidableEq

/-- The `monthMap` table inside `repriceFromTable`. -/
def monthMap (m : String) : Option String :=
  match m with
  | "Jan" => some "01"
  | "Feb" => some "02"
  | "Mar" => some "03"
  | "Apr" => some "04"
  | "May" => some "05"
  | "Jun" => some "06"
  | "Jul" => some "07"
  | "Aug" => some "08"
  | "Sep" => some "09"
  | "Oct" => some "10"
  | "Nov" => some "11"
  | "Dec" => some "12"
  | _ => none

/-- The year fragment `2000 + parseInt(yearStr)` rendered into the expiry
date template string (`NaN` when the year digits do not parse). -/
def yearRender (yearStr : String) : String :=
  match parseIntJS yearStr with
  | some n => intToString (2000 + n)
  | none => "NaN"

/-- The per-row leg builder of `repriceFromTable` in `pricerStore.ts`:
skips the row (`continue`) when expiry, strike, type or ratio is missing,
falsy or the month is unrecognized; otherwise emits the request leg with
`side` from the ratio's sign and `quantity = ratio = |ratio|`. -/
def rowToLeg (row : LegRow) : Option ApiLeg :=
  let expiry := jsTrim row.expiry
  let ty := jsTrim row.type
  match jsNumber row.strike, jsNumber row.ratio with
  | some k, some q =>
    if expiry = "" ∨ k = 0 ∨ ty = "" ∨ q = 0 then none
    else
      match monthMap (strTake expiry 3) with
      | none => none
      | some month =>
        if strDrop expiry 3 = "" then none
        else some
          { expiry := yearRender (strDrop expiry 3) ++ "-" ++ month ++ "-16"
            strike := k
            option_type := if ty = "C" then "call" else "put"
            side := if 0 < q then "buy" else "sell"
            quantity := |q|
            ratio := |q| }
  | _, _ => none

/-- The leg list `repriceFromTable` submits: the `Leg`-labelled rows of the
table, each mapped through `rowToLeg`, skipped rows omitted. -/
def buildLegsFromTable (rows : List LegRow) : List ApiLeg :=
  (rows.filter (fun r => strStartsWith r.leg "Leg")).filterMap rowToLeg

/-- The `sideMap` lookup of `AddOrderButton.handleAdd`
(`{ bid: 'Bid', offer: 'Offered' }[qs] || ''`). -/
def sideMap (qs : String) : String :=
  if qs = "bid" then "Bid" else if qs = "offer" then "Offered" else ""

/-- `AddOrderButton.handleAdd`: serializes the currently priced structure and
the pricer state into a blotter record; `none` when no structure is priced.
The generated id and timestamp are passed in (`genId()` / clock). -/
def handleAdd (id' ts : String) (s : PricerState) : Option BlotterOrder :=
  match s.currentStructure with
  | none => none
  | some cs => some
    { id := id'
      added_time := ts
      underlying := cs.underlying
      «structure» := cs.structure_name ++ " " ++ cs.structure_detail
      bid := match cs.bid with
        | some v => toFixed2 v
        | none => "--"
      mid := match cs.mid with
        | some v => toFixed2 v
        | none => "--"
      offer := match cs.offer with
        | some v => toFixed2 v
        | none => "--"
      bid_size := match cs.bid_size with
        | some v => ratToString v
        | none => "--"
      offer_size := match cs.offer_size with
        | some v => ratToString v
        | none => "--"
      side := sideMap s.quoteSide
      size := s.quantity
      traded := "No"
      bought_sold := ""
      traded_price := ""
      initiator := ""
      pnl := ""
      multiplier := cs.multiplier
      rec_table_data := some s.tableData
      rec_underlying := some s.underlying
      rec_structure_type := some s.structureType
      rec_stock_ref := optNonzero (parseFloatJS s.stockRef)
      rec_delta := optNonzero (parseFloatJS s.delta)
      rec_broker_price := optNonzero (parseFloatJS s.brokerPrice)
      rec_quote_side := some s.quoteSide
      rec_quantity := optNonzeroInt (parseIntJS s.quantity)
      rec_current_structure := some cs }


/-- Modelled from the spec: per-leg screen quote (`LegMarketData`), each side
either a value or the explicit "unavailable" sentinel (`structure_pricer.py`
and `models.py` are not in the repository snapshot). -/
structure LegQuote where
  bid : Option ℚ
  offer : Option ℚ
  bid_size : Option ℚ
  offer_size : Option ℚ
deriving DecidableEq

/-- Modelled from the spec: a structure leg as the aggregator sees it — the
signed ratio together with the leg's screen quote. -/
structure AggLeg where
  ratio : ℚ
  quote : LegQuote
deriving DecidableEq

/-- Modelled from the spec: the quote a leg must supply for the structure
bid ("ratio>0 ? leg.offer : leg.bid" — buying a leg fills at its offer). -/
def bidReq (l : AggLeg) : Option ℚ :=
  if 0 < l.ratio then l.quote.offer else l.quote.bid

/-- Modelled from the spec: the quote a leg must supply for the structure
offer (the mirror fill assumption). -/
def offerReq (l : AggLeg) : Option ℚ :=
  if 0 < l.ratio then l.quote.bid else l.quote.offer

/-- Modelled from the spec: a leg's contribution to the structure bid,
`-ratio × (required quote)`; unavailable when the required quote is. -/
def bidFill (l : AggLeg) : Option ℚ :=
  (bidReq l).map (fun x => -l.ratio * x)

/-- Modelled from the spec: a leg's contribution to the structure offer. -/
def offerFill (l : AggLeg) : Option ℚ :=
  (offerReq l).map (fun x => -l.ratio * x)

/-- Sum of optional values: unavailable as soon as one term is. -/
def sumOpt : List (Option ℚ) → Option ℚ
  | [] => some 0
  | o :: rest => o.bind (fun a => (sumOpt rest).bind (fun b => some (a + b)))

/-- Modelled from the spec: the structure bid,
`Σ over legs of (ratio>0 ? -ratio×leg.offer : -ratio×leg.bid)`,
unavailable when any required leg quote is. -/
def structBid (legs : List AggLeg) : Option ℚ :=
  sumOpt (legs.map bidFill)

/-- Modelled from the spec: the structure offer — the mirror sum with the
opposite fill assumption per leg. -/
def structOffer (legs : List AggLeg) : Option ℚ :=
  sumOpt (legs.map offerFill)

/-- Modelled from the spec: the structure mid — the midpoint when both
sides exist, unavailable otherwise. -/
def structMid (legs : List AggLeg) : Option ℚ :=
  match structBid legs, structOffer legs with
  | some b, some o => some ((b + o) / 2)
  | _, _ => none

/-- A leg quote is ordered when both its sides are present and bid ≤ offer
(what the Leg Quote Resolver produces for an available leg). -/
def legOrdered (q : LegQuote) : Prop :=
  match q.bid, q.offer with
  | some b, some o => b ≤ o
  | _, _ => True

instance (q : LegQuote) : Decidable (legOrdered q) := by
  unfold legOrdered
  exact match q.bid, q.offer with
  | some b, some o => inferInstanceAs (Decidable (b ≤ o))
  | some _, none => inferInstanceAs (Decidable True)
  | none, some _ => inferInstanceAs (Decidable True)
  | none, none => inferInstanceAs (Decidable True)


lemma sumOpt_cons_some {o : Option ℚ} {rest : List (Option ℚ)} {s : ℚ}
    (h : sumOpt (o :: rest) = some s) :
    ∃ a b, o = some a ∧ sumOpt rest = some b ∧ s = a + b := by
  rw [sumOpt] at h
  rcases Option.bind_eq_some.mp h with ⟨a, ha, h2⟩
  rcases Option.bind_eq_some.mp h2 with ⟨b, hb, h3⟩
  exact ⟨a, b, ha, hb, (Option.some.injEq _ _ ▸ h3).symm⟩

lemma sumOpt_of_mem_none {l : List (Option ℚ)} (h : none ∈ l) : sumOpt l = none := by
  induction l with
  | nil => simp at h
  | cons o rest ih =>
    rcases List.mem_cons.mp h with h1 | h2
    · rw [← h1, sumOpt]; rfl
    · rw [sumOpt, ih h2]
      cases o <;> rfl

lemma bidFill_le_offerFill {l : AggLeg} (hord : legOrdered l.quote) {x y : ℚ}
    (hx : bidFill l = some x) (hy : offerFill l = some y) : x ≤ y := by
  rw [bidFill, bidReq] at hx
  rw [offerFill, offerReq] at hy
  by_cases h : 0 < l.ratio
  · rw [if_pos h] at hx hy
    rcases Option.map_eq_some'.mp hx with ⟨xo, hxo, hxv⟩
    rcases Option.map_eq_some'.mp hy with ⟨yb, hyb, hyv⟩
    have hbo : yb ≤ xo := by
      unfold legOrdered at hord
      rw [hyb, hxo] at hord
      exact hord
    subst hxv hyv
    have := mul_le_mul_of_nonpos_left hbo (neg_nonpos.mpr h.le)
    linarith
  · rw [if_neg h] at hx hy
    rcases Option.map_eq_some'.mp hx with ⟨xb, hxb, hxv⟩
    rcases Option.map_eq_some'.mp hy with ⟨yo, hyo, hyv⟩
    have hbo : xb ≤ yo := by
      unfold legOrdered at hord
      rw [hxb, hyo] at hord
      exact hord
    subst hxv hyv
    have := mul_le_mul_of_nonneg_left hbo (neg_nonneg.mpr (not_lt.mp h))
    linarith

/-- C1: whenever every contributing leg quote is available and each leg's
own bid does not exceed its offer, the aggregator's structure bid — the sum
of per-leg worst-case fills `-ratio × (ratio>0 ? offer : bid)` — is at most
the structure offer, the mirror sum with the opposite fill per leg.  The
inequality is produced by the two sums themselves (both sides are summed
unmodified, no min/max or absolute-value step), so it also covers net-debit
structures whose bid and offer are both negative. -/
theorem structure_bid_le_offer (legs : List AggLeg)
    (hord : ∀ l ∈ legs, legOrdered l.quote) (b o : ℚ)
    (hb : structBid legs = some b) (ho : structOffer legs = some o) : b ≤ o := by
  induction legs generalizing b o with
  | nil =>
    rw [structBid, List.map_nil, sumOpt, Option.some.injEq] at hb
    rw [structOffer, List.map_nil, sumOpt, Option.some.injEq] at ho
    rw [← hb, ← ho]
  | cons l rest ih =>
    rw [structBid, List.map_cons] at hb
    rw [structOffer, List.map_cons] at ho
    rcases sumOpt_cons_some hb with ⟨xb, sb, hxb, hsb, rfl⟩
    rcases sumOpt_cons_some ho with ⟨xo, so, hxo, hso, rfl⟩
    have h1 : xb ≤ xo :=
      bidFill_le_offerFill (hord l (List.mem_cons_self l rest)) hxb hxo
    have h2 : sb ≤ so :=
      ih (fun l' hl' => hord l' (List.mem_cons_of_mem l hl')) sb so hsb hso
    linarith

/-- Concrete legs for the C1 witness: a 1×2 net-debit structure (both
structure sides negative). -/
def legsNetDebit : List AggLeg :=
  [⟨1, ⟨some 5, some 6, none, none⟩⟩, ⟨-2, ⟨some 1, some 2, none, none⟩⟩]

/-- Witness for C1 at a concrete net-debit structure: bid −4 ≤ offer −1. -/
theorem structure_bid_le_offer_witness :
    (∀ l ∈ legsNetDebit, legOrdered l.quote) ∧
      structBid legsNetDebit = some (-4) ∧ structOffer legsNetDebit = some (-1) ∧
      (-4 : ℚ) ≤ (-1 : ℚ) := by
  have hb : structBid legsNetDebit = some (-4) := by
    simp only [legsNetDebit, structBid, List.map_cons, List.map_nil, bidFill, bidReq, sumOpt,
      Option.map_some', Option.some_bind, Option.bind_eq_bind]
    norm_num
  have ho : structOffer legsNetDebit = some (-1) := by
    simp only [legsNetDebit, structOffer, List.map_cons, List.map_nil, offerFill, offerReq, sumOpt,
      Option.map_some', Option.some_bind, Option.bind_eq_bind]
    norm_num
  exact ⟨by decide, hb, ho,
    structure_bid_le_offer legsNetDebit (by decide) (-4) (-1) hb ho⟩

/-- C2: unavailability propagation in the aggregator.  If any leg's quote
required for a side (its offer when bought, its bid when sold) is the
unavailable sentinel, that structure side is unavailable — never a numeric
value from the remaining legs; and for a non-empty structure whose legs are
all unavailable, bid, offer and mid are all unavailable. -/
theorem structure_unavailability (legs : List AggLeg) :
    ((∃ l ∈ legs, bidReq l = none) → structBid legs = none) ∧
    ((∃ l ∈ legs, offerReq l = none) → structOffer legs = none) ∧
    (legs ≠ [] → (∀ l ∈ legs, l.quote.bid = none ∧ l.quote.offer = none) →
      structBid legs = none ∧ structOffer legs = none ∧ structMid legs = none) := by
  have hbid : (∃ l ∈ legs, bidReq l = none) → structBid legs = none := by
    rintro ⟨l, hl, hreq⟩
    apply sumOpt_of_mem_none
    have h : bidFill l = none := by rw [bidFill, hreq]; rfl
    exact h ▸ List.mem_map_of_mem bidFill hl
  have hoff : (∃ l ∈ legs, offerReq l = none) → structOffer legs = none := by
    rintro ⟨l, hl, hreq⟩
    apply sumOpt_of_mem_none
    have h : offerFill l = none := by rw [offerFill, hreq]; rfl
    exact h ▸ List.mem_map_of_mem offerFill hl
  refine ⟨hbid, hoff, ?_⟩
  intro hne hall
  obtain ⟨l, hl⟩ : ∃ l, l ∈ legs := by
    cases legs with
    | nil => exact absurd rfl hne
    | cons a t => exact ⟨a, List.mem_cons_self a t⟩
  have hb : structBid legs = none := by
    apply hbid
    refine ⟨l, hl, ?_⟩
    rw [bidReq]
    rcases hall l hl with ⟨h1, h2⟩
    by_cases h : 0 < l.ratio
    · rw [if_pos h]; exact h2
    · rw [if_neg h]; exact h1
  have ho : structOffer legs = none := by
    apply hoff
    refine ⟨l, hl, ?_⟩
    rw [offerReq]
    rcases hall l hl with ⟨h1, h2⟩
    by_cases h : 0 < l.ratio
    · rw [if_pos h]; exact h1
    · rw [if_neg h]; exact h2
  refine ⟨hb, ho, ?_⟩
  rw [structMid, hb]

/-- Concrete legs for the C2 witness: a two-leg structure whose first leg
has no offer (needed for the structure bid since it is bought). -/
def legsMissing : List AggLeg :=
  [⟨1, ⟨some 5, none, none, none⟩⟩, ⟨-1, ⟨some 1, some 2, none, none⟩⟩]

/-- Concrete legs for the C2 witness: an all-unavailable structure. -/
def legsAllGone : List AggLeg :=
  [⟨1, ⟨none, none, none, none⟩⟩, ⟨-2, ⟨none, none, none, none⟩⟩]

/-- Witness for C2 at concrete inputs: a missing bought-leg offer makes the
structure bid unavailable, and an all-unavailable leg set makes bid, offer
and mid unavailable. -/
theorem structure_unavailability_witness :
    structBid legsMissing = none ∧
      (structBid legsAllGone = none ∧ structOffer legsAllGone = none ∧
        structMid legsAllGone = none) :=
  ⟨(structure_unavailability legsMissing).1
      ⟨⟨1, ⟨some 5, none, none, none⟩⟩, by decide, by decide⟩,
    (structure_unavailability legsAllGone).2.2 (by decide) (by decide)⟩

/-- C3: `applyTemplate` replaces the table with the tag's canonical ordered
leg list.  The listed shapes get exactly the documented signed ratios and
option types, positionally; in general row `i` of the new table is the blank
row `Leg i` (empty expiry, strike and quote fields) carrying slot `i` of the
template; a tag absent from the table leaves the whole state unchanged. -/
theorem applyTemplate_canonical (s : PricerState) :
    ((applyTemplate s "put_spread").tableData =
      [{ emptyRow 1 with type := "P", ratio := JSVal.num 1 },
       { emptyRow 2 with type := "P", ratio := JSVal.num (-1) }]) ∧
    ((applyTemplate s "risk_reversal").tableData =
      [{ emptyRow 1 with type := "P", ratio := JSVal.num (-1) },
       { emptyRow 2 with type := "C", ratio := JSVal.num 1 }]) ∧
    ((applyTemplate s "butterfly").tableData.map (fun r => r.ratio) =
      [JSVal.num 1, JSVal.num (-2), JSVal.num 1]) ∧
    ((applyTemplate s "put_fly").tableData.map (fun r => r.ratio) =
      [JSVal.num 1, JSVal.num (-2), JSVal.num 1]) ∧
    ((applyTemplate s "call_fly").tableData.map (fun r => r.ratio) =
      [JSVal.num 1, JSVal.num (-2), JSVal.num 1]) ∧
    ((applyTemplate s "iron_condor").tableData =
      [{ emptyRow 1 with type := "P", ratio := JSVal.num 1 },
       { emptyRow 2 with type := "P", ratio := JSVal.num (-1) },
       { emptyRow 3 with type := "C", ratio := JSVal.num (-1) },
       { emptyRow 4 with type := "C", ratio := JSVal.num 1 }]) ∧
    (∀ tag tpl, STRUCTURE_TEMPLATES tag = some tpl →
      (applyTemplate s tag).tableData =
        tpl.enum.map (fun p =>
          { emptyRow (p.1 + 1) with type := p.2.type, ratio := JSVal.num p.2.ratio }) ∧
      ((applyTemplate s tag).tableData.map (fun r => r.leg) =
        (List.range tpl.length).map (fun i => "Leg " ++ natDigitStr (i + 1))) ∧
      (∀ r ∈ (applyTemplate s tag).tableData,
        r.expiry = "" ∧ r.strike = JSVal.str "" ∧ r.bid_size = "" ∧ r.bid = "" ∧
          r.mid = "" ∧ r.offer = "" ∧ r.offer_size = "") ∧
      (applyTemplate s tag).structureType = tag) ∧
    (∀ tag, STRUCTURE_TEMPLATES tag = none → applyTemplate s tag = s) := by
  refine ⟨rfl, rfl, rfl, rfl, rfl, rfl, ?_, ?_⟩
  · intro tag tpl h
    rw [applyTemplate, h]
    refine ⟨rfl, ?_, ?_, rfl⟩
    · rw [List.map_map]
      have h2 : (fun r : LegRow => r.leg) ∘
          (fun p : ℕ × TemplateLeg =>
            { emptyRow (p.1 + 1) with type := p.2.type, ratio := JSVal.num p.2.ratio }) =
          (fun i => "Leg " ++ natDigitStr (i + 1)) ∘ Prod.fst := rfl
      rw [h2, ← List.map_map, List.enum_map_fst]
    · intro r hr
      rcases List.mem_map.mp hr with ⟨p, _, hpr⟩
      rw [← hpr]
      exact ⟨rfl, rfl, rfl, rfl, rfl, rfl, rfl⟩
  · intro tag h
    rw [applyTemplate, h]

/-- The store's initial state (`usePricerStore`'s initializer). -/
def samplePricerState : PricerState :=
  { orderText := ""
    tableData := [emptyRow 1, emptyRow 2]
    header := none
    brokerQuote := none
    currentStructure := none
    parseError := ""
    tableError := ""
    underlying := ""
    structureType := ""
    stockRef := ""
    delta := ""
    brokerPrice := ""
    quoteSide := "bid"
    quantity := ""
    loading := false }

/-- Witness for C3 at the initial store state: the put-spread template and
an unknown tag. -/
theorem applyTemplate_canonical_witness :
    (applyTemplate samplePricerState "put_spread").tableData =
      [{ emptyRow 1 with type := "P", ratio := JSVal.num 1 },
       { emptyRow 2 with type := "P", ratio := JSVal.num (-1) }] ∧
    applyTemplate samplePricerState "diagonal" = samplePricerState :=
  ⟨(applyTemplate_canonical samplePricerState).1,
    (applyTemplate_canonical samplePricerState).2.2.2.2.2.2.2 "diagonal" rfl⟩

/-- C4: `AddOrderButton.handleAdd` serializes every unavailable numeric
structure field as the literal string `"--"` (in particular never `"0.00"`;
the blotter record's fields are strings, so no `null` can be written), and
serializes available bid/mid/offer with `toFixed(2)` and the sizes with
`String(...)`. -/
theorem addOrder_unavailable_as_dashes (s : PricerState) (cs : CurrentStructure)
    (id' ts : String) (hcs : s.currentStructure = some cs) :
    ∃ order, handleAdd id' ts s = some order ∧
      (cs.bid = none → order.bid = "--" ∧ order.bid ≠ "0.00") ∧
      (∀ v, cs.bid = some v → order.bid = toFixed2 v) ∧
      (cs.mid = none → order.mid = "--" ∧ order.mid ≠ "0.00") ∧
      (∀ v, cs.mid = some v → order.mid = toFixed2 v) ∧
      (cs.offer = none → order.offer = "--" ∧ order.offer ≠ "0.00") ∧
      (∀ v, cs.offer = some v → order.offer = toFixed2 v) ∧
      (cs.bid_size = none → order.bid_size = "--" ∧ order.bid_size ≠ "0.00") ∧
      (∀ v, cs.bid_size = some v → order.bid_size = ratToString v) ∧
      (cs.offer_size = none → order.offer_size = "--" ∧ order.offer_size ≠ "0.00") ∧
      (∀ v, cs.offer_size = some v → order.offer_size = ratToString v) := by
  simp only [handleAdd, hcs]
  refine ⟨_, rfl, ?_, ?_, ?_, ?_, ?_, ?_, ?_, ?_, ?_, ?_⟩
  · intro h; rw [h]; exact ⟨rfl, show ("--" : String) ≠ "0.00" by decide⟩
  · intro v h; rw [h]
  · intro h; rw [h]; exact ⟨rfl, show ("--" : String) ≠ "0.00" by decide⟩
  · intro v h; rw [h]
  · intro h; rw [h]; exact ⟨rfl, show ("--" : String) ≠ "0.00" by decide⟩
  · intro v h; rw [h]
  · intro h; rw [h]; exact ⟨rfl, show ("--" : String) ≠ "0.00" by decide⟩
  · intro v h; rw [h]
  · intro h; rw [h]; exact ⟨rfl, show ("--" : String) ≠ "0.00" by decide⟩
  · intro v h; rw [h]

/-- A concrete priced structure for the C4 witness: bid and bid size
unavailable, mid/offer/offer size available. -/
def sampleStructHalf : CurrentStructure :=
  { underlying := "AAPL"
    structure_name := "put spread"
    structure_detail := "Jun26 240/220"
    bid := none
    mid := some 3
    offer := some 4
    bid_size := none
    offer_size := some 250
    multiplier := 100 }

/-- The pricer state holding `sampleStructHalf` for the C4 witness. -/
def sampleStateHalf : PricerState :=
  { samplePricerState with currentStructure := some sampleStructHalf }

/-- Witness for C4 at a concrete half-available structure: the unavailable
bid serializes as `"--"` and the available offer as `toFixed2`. -/
theorem addOrder_unavailable_as_dashes_witness :
    ∃ order, handleAdd "id-1" "2026-02-11T10:00:00" sampleStateHalf = some order ∧
      order.bid = "--" ∧ order.bid ≠ "0.00" ∧ order.offer = toFixed2 4 := by
  rcases addOrder_unavailable_as_dashes sampleStateHalf sampleStructHalf
      "id-1" "2026-02-11T10:00:00" rfl with
    ⟨order, horder, hbid, _, _, _, _, hoff, _, _, _, _⟩
  exact ⟨order, horder, (hbid rfl).1, (hbid rfl).2, hoff 4 rfl⟩

/-- C6: a failed `parseAndPrice` is never partially applied.  With empty
input the error message is stored and nothing else changes; when the
parse/price call throws, the message lands in `parseError` and the table
data, all seven toolbar fields, the header, the broker quote and the current
structure are exactly as before the call. -/
theorem parseAndPrice_atomic_on_failure (s : PricerState) :
    (jsTrim s.orderText = "" →
      ∀ api, parseAndPrice s api = { s with parseError := "Please enter an order." }) ∧
    (∀ msg, jsTrim s.orderText ≠ "" →
      (parseAndPrice s (Except.error msg)).parseError = msg ∧
      (parseAndPrice s (Except.error msg)).tableData = s.tableData ∧
      (parseAndPrice s (Except.error msg)).underlying = s.underlying ∧
      (parseAndPrice s (Except.error msg)).structureType = s.structureType ∧
      (parseAndPrice s (Except.error msg)).stockRef = s.stockRef ∧
      (parseAndPrice s (Except.error msg)).delta = s.delta ∧
      (parseAndPrice s (Except.error msg)).brokerPrice = s.brokerPrice ∧
      (parseAndPrice s (Except.error msg)).quoteSide = s.quoteSide ∧
      (parseAndPrice s (Except.error msg)).quantity = s.quantity ∧
      (parseAndPrice s (Except.error msg)).header = s.header ∧
      (parseAndPrice s (Except.error msg)).brokerQuote = s.brokerQuote ∧
      (parseAndPrice s (Except.error msg)).currentStructure = s.currentStructure) := by
  constructor
  · intro h api
    rw [parseAndPrice.eq_def, if_pos h]
  · intro msg h
    rw [parseAndPrice.eq_def, if_neg h]
    exact ⟨rfl, rfl, rfl, rfl, rfl, rfl, rfl, rfl, rfl, rfl, rfl, rfl⟩

/-- Witness for C6: the empty-input path on the initial state, and a thrown
parse error on a state with order text. -/
theorem parseAndPrice_atomic_on_failure_witness :
    parseAndPrice samplePricerState (Except.error "boom") =
      { samplePricerState with parseError := "Please enter an order." } ∧
    (parseAndPrice { samplePricerState with orderText := "AAPL" }
        (Except.error "No underlying ticker found")).parseError =
      "No underlying ticker found" ∧
    (parseAndPrice { samplePricerState with orderText := "AAPL" }
        (Except.error "No underlying ticker found")).tableData =
      ({ samplePricerState with orderText := "AAPL" } : PricerState).tableData :=
  ⟨(parseAndPrice_atomic_on_failure samplePricerState).1 (by decide) (Except.error "boom"),
    ((parseAndPrice_atomic_on_failure { samplePricerState with orderText := "AAPL" }).2
        "No underlying ticker found" (by decide)).1,
    ((parseAndPrice_atomic_on_failure { samplePricerState with orderText := "AAPL" }).2
        "No underlying ticker found" (by decide)).2.1⟩


/-- C8: legs submitted by `repriceFromTable`.  A row that yields a request
leg has a numeric nonzero ratio; the leg's side is `buy` exactly when that
ratio is positive and `sell` exactly when it is negative, and both the leg's
quantity and ratio are the absolute value of the row ratio (hence positive).
Rows whose ratio is zero or unparseable — or whose expiry, strike or type is
missing — are skipped, so every submitted leg has a positive ratio field. -/
theorem repriceLegs_side_from_ratio (rows : List LegRow) :
    (∀ r leg, rowToLeg r = some leg →
      ∃ q, jsNumber r.ratio = some q ∧ q ≠ 0 ∧
        (leg.side = "buy" ↔ 0 < q) ∧ (leg.side = "sell" ↔ q < 0) ∧
        leg.quantity = |q| ∧ leg.ratio = |q| ∧ 0 < leg.ratio) ∧
    (∀ r, (jsNumber r.ratio = some 0 ∨ jsNumber r.ratio = none ∨
        jsTrim r.expiry = "" ∨ jsNumber r.strike = some 0 ∨ jsNumber r.strike = none ∨
        jsTrim r.type = "") → rowToLeg r = none) ∧
    (∀ leg ∈ buildLegsFromTable rows,
      0 < leg.ratio ∧ (leg.side = "buy" ∨ leg.side = "sell")) := by
  have main : ∀ r leg, rowToLeg r = some leg →
      ∃ q, jsNumber r.ratio = some q ∧ q ≠ 0 ∧
        (leg.side = "buy" ↔ 0 < q) ∧ (leg.side = "sell" ↔ q < 0) ∧
        leg.quantity = |q| ∧ leg.ratio = |q| ∧ 0 < leg.ratio := by
    intro r leg h
    rw [rowToLeg.eq_def] at h
    cases hk : jsNumber r.strike with
    | none => rw [hk] at h; simp at h
    | some k =>
      cases hq : jsNumber r.ratio with
      | none => rw [hk, hq] at h; simp at h
      | some q =>
        rw [hk, hq] at h
        simp only at h
        by_cases hc : jsTrim r.expiry = "" ∨ k = 0 ∨ jsTrim r.type = "" ∨ q = 0
        · rw [if_pos hc] at h; simp at h
        · rw [if_neg hc] at h
          push_neg at hc
          cases hm : monthMap (strTake (jsTrim r.expiry) 3) with
          | none => rw [hm] at h; simp at h
          | some month =>
            rw [hm] at h
            simp only at h
            by_cases hy : strDrop (jsTrim r.expiry) 3 = ""
            · rw [if_pos hy] at h; simp at h
            · rw [if_neg hy] at h
              simp only [Option.some.injEq] at h
              subst h
              have hq0 : q ≠ 0 := hc.2.2.2
              refine ⟨q, rfl, hq0, ?_, ?_, rfl, rfl, abs_pos.mpr hq0⟩
              · by_cases hpos : 0 < q
                · rw [if_pos hpos]
                  exact ⟨fun _ => hpos, fun _ => rfl⟩
                · rw [if_neg hpos]
                  exact ⟨fun hbad => absurd hbad (show ¬("sell" : String) = "buy" by decide),
                    fun hlt => absurd hlt hpos⟩
              · by_cases hpos : 0 < q
                · rw [if_pos hpos]
                  exact ⟨fun hbad => absurd hbad (show ¬("buy" : String) = "sell" by decide),
                    fun hlt => absurd hpos (not_lt.mpr hlt.le)⟩
                · rw [if_neg hpos]
                  exact ⟨fun _ => (not_lt.mp hpos).lt_of_ne hq0, fun _ => rfl⟩
  refine ⟨main, ?_, ?_⟩
  · intro r hdisj
    rw [rowToLeg.eq_def]
    cases hk : jsNumber r.strike with
    | none => rfl
    | some k =>
      cases hq : jsNumber r.ratio with
      | none => rfl
      | some q =>
        simp only
        rcases hdisj with h | h | h | h | h | h
        · rw [hq] at h
          simp only [Option.some.injEq] at h
          rw [if_pos (Or.inr (Or.inr (Or.inr h)))]
        · rw [hq] at h; exact absurd h (by simp)
        · rw [if_pos (Or.inl h)]
        · rw [hk] at h
          simp only [Option.some.injEq] at h
          rw [if_pos (Or.inr (Or.inl h))]
        · rw [hk] at h; exact absurd h (by simp)
        · rw [if_pos (Or.inr (Or.inr (Or.inl h)))]
  · intro leg hleg
    rcases List.mem_filterMap.mp hleg with ⟨r, _, hr⟩
    rcases main r leg hr with ⟨q, _, hq0, hbuy, hsell, _, _, hpos⟩
    refine ⟨hpos, ?_⟩
    rcases lt_or_gt_of_ne hq0 with hlt | hgt
    · exact Or.inr (hsell.mpr hlt)
    · exact Or.inl (hbuy.mpr hgt)

/-- A concrete sold-leg row for the C8 witness. -/
def sampleRowSell : LegRow :=
  { leg := "Leg 1"
    expiry := "Jun26"
    strike := JSVal.num 240
    type := "P"
    ratio := JSVal.num (-2)
    bid_size := ""
    bid := ""
    mid := ""
    offer := ""
    offer_size := "" }

/-- The request leg `rowToLeg` produces from `sampleRowSell`. -/
def sampleLegSell : ApiLeg :=
  { expiry := "2026-06-16"
    strike := 240
    option_type := "put"
    side := "sell"
    quantity := 2
    ratio := 2 }

/-- Witness for C8: the concrete row with ratio −2 produces a `sell` leg
with quantity = ratio = 2, and a zero-ratio row is skipped. -/
theorem repriceLegs_side_from_ratio_witness :
    (∃ q, jsNumber sampleRowSell.ratio = some q ∧ q ≠ 0 ∧
      (sampleLegSell.side = "buy" ↔ 0 < q) ∧ (sampleLegSell.side = "sell" ↔ q < 0) ∧
      sampleLegSell.quantity = |q| ∧ sampleLegSell.ratio = |q| ∧ 0 < sampleLegSell.ratio) ∧
    rowToLeg ({ sampleRowSell with ratio := JSVal.num 0 }) = none :=
  ⟨(repriceLegs_side_from_ratio []).1 sampleRowSell sampleLegSell (by decide),
    (repriceLegs_side_from_ratio []).2.1 ({ sampleRowSell with ratio := JSVal.num 0 })
      (Or.inl (by decide))⟩

/-- The pricing-table shape predicate: every row except possibly the last is
not labelled `Structure` — equivalently, there is at most one `Structure`
row and, when present, it is the last element (the grid renders it as the
single pinned bottom aggregate row). -/
def shapeOk (rows : List LegRow) : Bool :=
  match rows.reverse with
  | [] => true
  | _ :: front => front.all (fun r => r.leg != "Structure")

lemma shapeOk_of_all {rows : List LegRow}
    (h : rows.all (fun r => r.leg != "Structure") = true) : shapeOk rows = true := by
  rw [shapeOk]
  cases hrev : rows.reverse with
  | nil => rfl
  | cons last front =>
    simp only
    refine List.all_eq_true.mpr (fun r hr => ?_)
    refine List.all_eq_true.mp h r ?_
    have : r ∈ rows.reverse := hrev ▸ List.mem_cons_of_mem last hr
    exact List.mem_reverse.mp this

lemma shapeOk_append_one {rows : List LegRow} (x : LegRow)
    (h : rows.all (fun r => r.leg != "Structure") = true) :
    shapeOk (rows ++ [x]) = true := by
  rw [shapeOk]
  have hrev : (rows ++ [x]).reverse = x :: rows.reverse := by
    rw [List.reverse_append]; rfl
  rw [hrev]
  simp only
  refine List.all_eq_true.mpr (fun r hr => ?_)
  exact List.all_eq_true.mp h r (List.mem_reverse.mp hr)

lemma all_filter_ne (rows : List LegRow) :
    (rows.filter (fun r => r.leg != "Structure")).all (fun r => r.leg != "Structure") = true :=
  List.all_eq_true.mpr (fun r hr => (List.mem_filter.mp hr).2)

lemma legPrefix_ne_structure (t : String) : ("Leg " ++ t) ≠ "Structure" := by
  intro h
  have h2 : ("Leg " ++ t).data = "Structure".data := congrArg String.data h
  have h3 : ("Leg " ++ t).data = 'L' :: 'e' :: 'g' :: ' ' :: t.data := rfl
  have h4 : "Structure".data = ['S', 't', 'r', 'u', 'c', 't', 'u', 'r', 'e'] := rfl
  rw [h3, h4] at h2
  injection h2 with h5 _
  exact absurd h5 (by decide)

lemma all_dropLast {rows : List LegRow} {p : LegRow → Bool}
    (h : rows.all p = true) : rows.dropLast.all p = true :=
  List.all_eq_true.mpr (fun r hr =>
    List.all_eq_true.mp h r (List.dropLast_subset rows hr))

lemma flipRow_leg (r : LegRow) : (flipRow r).leg = r.leg := by
  rw [flipRow]
  split <;> rfl

lemma shapeOk_map_flipRow {rows : List LegRow} (h : shapeOk rows = true) :
    shapeOk (rows.map flipRow) = true := by
  rw [shapeOk, ← List.map_reverse]
  rw [shapeOk] at h
  cases hrev : rows.reverse with
  | nil => rfl
  | cons last front =>
    rw [hrev] at h
    simp only [List.map_cons]
    simp only at h
    rw [List.all_map]
    refine List.all_eq_true.mpr (fun r hr => ?_)
    have := List.all_eq_true.mp h r hr
    simpa [Function.comp, flipRow_leg] using this

lemma shapeOk_applyPriceResponse (s : PricerState) (res : PriceResponse) :
    shapeOk (applyPriceResponse s res).tableData = true := by
  rw [applyPriceResponse]
  cases hf : res.table_data.find? (fun r => r.leg == "Structure") with
  | none => exact shapeOk_of_all (all_filter_ne res.table_data)
  | some r => exact shapeOk_append_one r (all_filter_ne res.table_data)

/-- C9: every pricer-store action preserves the table-shape invariant —
at most one `Structure` row, and when present it is the last element — and
`applyPriceResponse` keeps the leg rows in exactly the order the price
response listed them. -/
theorem tableShape_invariant (s : PricerState) (res : PriceResponse) (tag : String)
    (o : BlotterOrder) (msg : String) (pr : ParseResponse × PriceResponse) :
    (shapeOk (applyPriceResponse s res).tableData = true) ∧
    ((applyPriceResponse s res).tableData.filter (fun r => r.leg != "Structure") =
      res.table_data.filter (fun r => r.leg != "Structure")) ∧
    (shapeOk s.tableData = true → shapeOk (applyTemplate s tag).tableData = true) ∧
    (shapeOk (addRow s).tableData = true) ∧
    (shapeOk (removeRow s).tableData = true) ∧
    (shapeOk s.tableData = true → shapeOk (flipStructure s).tableData = true) ∧
    (shapeOk (clearAll s).tableData = true) ∧
    (shapeOk s.tableData = true →
      (∀ td, o.rec_table_data = some td → shapeOk td = true) →
      shapeOk (recallOrder s o).tableData = true) ∧
    (shapeOk s.tableData = true →
      shapeOk (parseAndPrice s (Except.error msg)).tableData = true) ∧
    (shapeOk s.tableData = true →
      shapeOk (parseAndPrice s (Except.ok pr)).tableData = true) := by
  refine ⟨shapeOk_applyPriceResponse s res, ?_, ?_, ?_, ?_, ?_, ?_, ?_, ?_, ?_⟩
  · rw [applyPriceResponse]
    cases hf : res.table_data.find? (fun r => r.leg == "Structure") with
    | none =>
      simp only
      exact List.filter_eq_self.mpr (fun r hr => (List.mem_filter.mp hr).2)
    | some r =>
      simp only
      rw [List.filter_append]
      have hr : (r.leg == "Structure") = true := by
        have := List.find?_some hf
        exact this
      have hne : (r.leg != "Structure") = false := by rw [bne, hr]; rfl
      have h1 : List.filter (fun x => x.leg != "Structure") [r] = [] := by
        simp [List.filter_cons, hne]
      rw [h1, List.append_nil]
      exact List.filter_eq_self.mpr (fun x hx => (List.mem_filter.mp hx).2)
  · intro h
    rw [applyTemplate]
    cases ht : STRUCTURE_TEMPLATES tag with
    | none => exact h
    | some tpl =>
      simp only
      refine shapeOk_of_all (List.all_eq_true.mpr (fun r hr => ?_))
      rcases List.mem_map.mp hr with ⟨p, _, hpr⟩
      have : r.leg = "Leg " ++ natDigitStr (p.1 + 1) := by rw [← hpr]; rfl
      rw [bne_iff_ne, this]
      exact legPrefix_ne_structure _
  · exact shapeOk_append_one _ (all_filter_ne s.tableData)
  · rw [removeRow]
    simp only
    split
    · exact shapeOk_of_all (all_dropLast (all_filter_ne s.tableData))
    · exact shapeOk_of_all (all_filter_ne s.tableData)
  · intro h
    exact shapeOk_map_flipRow h
  · exact (show shapeOk [emptyRow 1, emptyRow 2] = true by decide)
  · intro h h2
    rw [recallOrder]
    cases ho : o.rec_table_data with
    | none => exact h
    | some td => exact h2 td ho
  · intro h
    rw [parseAndPrice.eq_def]
    split
    · exact h
    · exact h
  · intro h
    rw [parseAndPrice.eq_def]
    split
    · exact h
    · exact shapeOk_applyPriceResponse _ _

/-- A concrete order header for witnesses. -/
def sampleHeader : OrderHeader :=
  { underlying := "AAPL", structure_name := "put spread", stock_ref := 250,
    stock_price := 0, delta := 15 }

/-- A concrete price response whose table lists the `Structure` aggregate
row first, followed by a leg row. -/
def sampleRes : PriceResponse :=
  { table_data := [{ emptyRow 0 with leg := "Structure" }, emptyRow 1]
    header := sampleHeader
    broker_quote := none
    current_structure := sampleStructHalf }

/-- A concrete parse response for witnesses. -/
def sampleParse : ParseResponse :=
  { underlying := "AAPL", structure_name := "put spread", legs := [],
    stock_ref := 250, delta := 15, price := 3, quote_side := "bid",
    quantity := 500, raw_text := "AAPL Jun26 240/220 PS" }

/-- A concrete blotter order carrying a recallable single-leg table. -/
def sampleOrder : BlotterOrder :=
  { id := "id-2", added_time := "2026-02-11T10:00:00", underlying := "AAPL",
    «structure» := "put spread Jun26 240/220", bid := "--", mid := "3.00",
    offer := "4.00", bid_size := "--", offer_size := "250", side := "Bid",
    size := "500", traded := "No", bought_sold := "", traded_price := "",
    initiator := "", pnl := "", multiplier := 100,
    rec_table_data := some [emptyRow 1]
    rec_underlying := some "AAPL"
    rec_structure_type := some "put_spread"
    rec_stock_ref := some 250
    rec_delta := some 15
    rec_broker_price := some 3
    rec_quote_side := some "bid"
    rec_quantity := some 500
    rec_current_structure := some sampleStructHalf }

/-- Witness for C9 at concrete inputs: template application, flip, recall
and a successful parse-and-price all keep the table shape. -/
theorem tableShape_invariant_witness :
    shapeOk (applyTemplate samplePricerState "put_spread").tableData = true ∧
    shapeOk (flipStructure samplePricerState).tableData = true ∧
    shapeOk (recallOrder samplePricerState sampleOrder).tableData = true ∧
    shapeOk (parseAndPrice samplePricerState
      (Except.ok (sampleParse, sampleRes))).tableData = true :=
  ⟨(tableShape_invariant samplePricerState sampleRes "put_spread" sampleOrder "m"
      (sampleParse, sampleRes)).2.2.1 (by decide),
   (tableShape_invariant samplePricerState sampleRes "put_spread" sampleOrder "m"
      (sampleParse, sampleRes)).2.2.2.2.2.1 (by decide),
   (tableShape_invariant samplePricerState sampleRes "put_spread" sampleOrder "m"
      (sampleParse, sampleRes)).2.2.2.2.2.2.2.1 (by decide)
      (by intro td h; rw [← Option.some.inj h]; decide),
   (tableShape_invariant samplePricerState sampleRes "put_spread" sampleOrder "m"
      (sampleParse, sampleRes)).2.2.2.2.2.2.2.2.2 (by decide)⟩

lemma jsOrStr_some_empty_default (u : String) : jsOrStr (some u) "" = u := by
  rw [jsOrStr]
  by_cases h : u = ""
  · rw [if_pos h, h]
  · rw [if_neg h]

lemma parseFloatJS_empty : parseFloatJS "" = none := rfl

lemma parseIntJS_empty : parseIntJS "" = none := rfl

/-- C5: serializing the pricer state to a blotter order (`handleAdd`) and
recalling that order (`recallOrder`) restores the table rows, underlying,
structure type, stock reference, delta, broker price, quote side, quantity
and current structure, for any state whose currently priced structure is
present and whose numeric toolbar strings are canonical (either empty, or a
nonzero number rendered exactly as JS `String(...)` renders it); the recall
never touches the raw order text. -/
theorem addOrder_recall_roundtrip (s s' : PricerState) (cs : CurrentStructure)
    (id' ts : String) (order : BlotterOrder)
    (hcs : s.currentStructure = some cs)
    (hsr : s.stockRef = "" ∨
      ∃ v, parseFloatJS s.stockRef = some v ∧ v ≠ 0 ∧ ratToString v = s.stockRef)
    (hd : s.delta = "" ∨
      ∃ v, parseFloatJS s.delta = some v ∧ v ≠ 0 ∧ ratToString v = s.delta)
    (hbp : s.brokerPrice = "" ∨
      ∃ v, parseFloatJS s.brokerPrice = some v ∧ v ≠ 0 ∧ ratToString v = s.brokerPrice)
    (hq : s.quantity = "" ∨
      ∃ n : ℤ, parseIntJS s.quantity = some n ∧ n ≠ 0 ∧ intToString n = s.quantity)
    (hqs : s.quoteSide ≠ "")
    (horder : handleAdd id' ts s = some order) :
    (recallOrder s' order).tableData = s.tableData ∧
    (recallOrder s' order).underlying = s.underlying ∧
    (recallOrder s' order).structureType = s.structureType ∧
    (recallOrder s' order).stockRef = s.stockRef ∧
    (recallOrder s' order).delta = s.delta ∧
    (recallOrder s' order).brokerPrice = s.brokerPrice ∧
    (recallOrder s' order).quoteSide = s.quoteSide ∧
    (recallOrder s' order).quantity = s.quantity ∧
    (recallOrder s' order).currentStructure = some cs := by
  rw [handleAdd.eq_def, hcs] at horder
  simp only [Option.some.injEq] at horder
  subst horder
  refine ⟨rfl, jsOrStr_some_empty_default s.underlying,
    jsOrStr_some_empty_default s.structureType, ?_, ?_, ?_, ?_, ?_, rfl⟩
  · show (match optNonzero (parseFloatJS s.stockRef) with
      | some v => ratToString v
      | none => "") = s.stockRef
    rcases hsr with h | ⟨v, hv, hv0, hp⟩
    · rw [h, parseFloatJS_empty]; rfl
    · rw [hv, optNonzero, if_neg hv0]; exact hp
  · show (match optNonzero (parseFloatJS s.delta) with
      | some v => ratToString v
      | none => "") = s.delta
    rcases hd with h | ⟨v, hv, hv0, hp⟩
    · rw [h, parseFloatJS_empty]; rfl
    · rw [hv, optNonzero, if_neg hv0]; exact hp
  · show (match optNonzero (parseFloatJS s.brokerPrice) with
      | some v => ratToString v
      | none => "") = s.brokerPrice
    rcases hbp with h | ⟨v, hv, hv0, hp⟩
    · rw [h, parseFloatJS_empty]; rfl
    · rw [hv, optNonzero, if_neg hv0]; exact hp
  · show jsOrStr (some s.quoteSide) "bid" = s.quoteSide
    rw [jsOrStr, if_neg hqs]
  · show (match optNonzeroInt (parseIntJS s.quantity) with
      | some n => intToString n
      | none => "") = s.quantity
    rcases hq with h | ⟨n, hn, hn0, hp⟩
    · rw [h, parseIntJS_empty]; rfl
    · rw [hn, optNonzeroInt, if_neg hn0]; exact hp

lemma parseFloatJS_250 : parseFloatJS "250" = some 250 := by
  have h1 : dropWs "250".data = ['2', '5', '0'] := by decide
  have h2 : parseShape ['2', '5', '0'] = some (false, ['2', '5', '0'], [], []) := by decide
  rw [parseFloatJS, h1, parseDecCore, h2]
  simp only [Option.map_some']
  have h3 : assembleDec false ['2', '5', '0'] [] = 250 := by
    rw [assembleDec]
    have h4 : digitsToNat ['2', '5', '0'] = 250 := by decide
    have h5 : digitsToNat [] = 0 := rfl
    simp only [h4, h5, List.length_nil]
    norm_num
  rw [h3]

lemma ratToString_250 : ratToString (250 : ℚ) = "250" := by
  have hval : ((250 : ℚ) * 10 ^ 0) = 250 := by norm_num
  have hp : ((((250 : ℚ)) * 10 ^ 0).den == 1) = true := by rw [hval]; decide
  have hfind : (List.range ((250 : ℚ).den + 1)).find?
      (fun k => (((250 : ℚ)) * 10 ^ k).den == 1) = some 0 := by
    have hr : List.range ((250 : ℚ).den + 1) = [0, 1] := by decide
    rw [hr, List.find?_cons]
    rw [hp]
  rw [ratToString, hfind]
  simp only [hval]
  decide

/-- The pricer state for the C5 witness: a priced structure with stock
reference `250` and otherwise empty toolbar numerics. -/
def sampleStateFull : PricerState :=
  { samplePricerState with
    currentStructure := some sampleStructHalf
    stockRef := "250" }

/-- Witness for C5: add-then-recall on `sampleStateFull` restores the stock
reference string `"250"`, the quote side and the current structure. -/
theorem addOrder_recall_roundtrip_witness :
    ∃ order, handleAdd "id-3" "t0" sampleStateFull = some order ∧
      (recallOrder samplePricerState order).stockRef = "250" ∧
      (recallOrder samplePricerState order).quoteSide = "bid" ∧
      (recallOrder samplePricerState order).tableData = sampleStateFull.tableData ∧
      (recallOrder samplePricerState order).currentStructure = some sampleStructHalf := by
  refine ⟨_, rfl, ?_⟩
  have h := addOrder_recall_roundtrip sampleStateFull samplePricerState sampleStructHalf
    "id-3" "t0" _ rfl
    (Or.inr ⟨250, parseFloatJS_250, by norm_num, ratToString_250⟩)
    (Or.inl rfl) (Or.inl rfl) (Or.inl rfl) (by decide) rfl
  exact ⟨h.2.2.2.1, h.2.2.2.2.2.2.1, h.1, h.2.2.2.2.2.2.2.2⟩

lemma digitsToNat_from (a : ℕ) (l : List Char) :
    l.foldl (fun x c => x * 10 + (c.toNat - 48)) a = a * 10 ^ l.length + digitsToNat l := by
  induction l generalizing a with
  | nil => simp [digitsToNat]
  | cons c t ih =>
    rw [List.foldl_cons]
    rw [ih (a * 10 + (c.toNat - 48))]
    have h2 : digitsToNat (c :: t) = (c.toNat - 48) * 10 ^ t.length + digitsToNat t := by
      rw [digitsToNat, List.foldl_cons]
      have := ih (0 * 10 + (c.toNat - 48))
      simpa using this
    rw [h2, List.length_cons]
    ring

lemma digitsToNat_append (l1 l2 : List Char) :
    digitsToNat (l1 ++ l2) = digitsToNat l1 * 10 ^ l2.length + digitsToNat l2 := by
  rw [digitsToNat, List.foldl_append]
  exact digitsToNat_from (digitsToNat l1) l2

lemma digitsToNat_replicate_zero (j : ℕ) : digitsToNat (List.replicate j '0') = 0 := by
  induction j with
  | zero => rfl
  | succ n ih =>
    rw [List.replicate_succ, digitsToNat, List.foldl_cons]
    have := digitsToNat_from (0 * 10 + ('0'.toNat - 48)) (List.replicate n '0')
    simpa [ih] using this

lemma natDigitsAux_acc (fuel : ℕ) : ∀ (n : ℕ) (acc : List Char),
    natDigitsAux fuel n acc = natDigitsAux fuel n [] ++ acc := by
  induction fuel with
  | zero => intro n acc; rfl
  | succ f ih =>
    intro n acc
    rw [natDigitsAux, natDigitsAux]
    by_cases h : n < 10
    · rw [if_pos h, if_pos h]; rfl
    · rw [if_neg h, if_neg h, ih (n / 10), ih (n / 10) [Char.ofNat (48 + n % 10)],
        List.append_assoc]
      rfl

lemma charOfNat_digit_toNat {m : ℕ} (h : m < 10) : (Char.ofNat (48 + m)).toNat = 48 + m := by
  interval_cases m <;> decide

lemma charOfNat_digit_isDigit {m : ℕ} (h : m < 10) : (Char.ofNat (48 + m)).isDigit = true := by
  interval_cases m <;> decide

lemma natDigitsAux_val (fuel : ℕ) : ∀ n : ℕ, n < 10 ^ fuel →
    digitsToNat (natDigitsAux fuel n []) = n := by
  induction fuel with
  | zero =>
    intro n hn
    interval_cases n
    rfl
  | succ f ih =>
    intro n hn
    rw [natDigitsAux]
    by_cases h : n < 10
    · rw [if_pos h]
      have hd : digitsToNat [Char.ofNat (48 + n % 10)] = n % 10 := by
        rw [digitsToNat, List.foldl_cons, List.foldl_nil,
          charOfNat_digit_toNat (Nat.mod_lt n (by norm_num))]
        omega
      rw [hd, Nat.mod_eq_of_lt h]
    · rw [if_neg h, natDigitsAux_acc, digitsToNat_append]
      have hlt : n / 10 < 10 ^ f := by
        have h10 : 0 < 10 := by norm_num
        rw [Nat.div_lt_iff_lt_mul h10]
        calc n < 10 ^ (f + 1) := hn
        _ = 10 ^ f * 10 := by rw [pow_succ]
      rw [ih (n / 10) hlt]
      have hd : digitsToNat [Char.ofNat (48 + n % 10)] = n % 10 := by
        rw [digitsToNat, List.foldl_cons, List.foldl_nil,
          charOfNat_digit_toNat (Nat.mod_lt n (by norm_num))]
        omega
      rw [hd]
      simp only [List.length_cons, List.length_nil, pow_one, pow_zero]
      omega

lemma digitsToNat_natDigits (n : ℕ) : digitsToNat (natDigits n) = n := by
  refine natDigitsAux_val (n + 1) n ?_
  calc n < 2 ^ n := Nat.lt_two_pow n
  _ ≤ 10 ^ n := Nat.pow_le_pow_left (by norm_num) n
  _ < 10 ^ (n + 1) := Nat.pow_lt_pow_right (by norm_num) (Nat.lt_succ_self n)

lemma natDigitsAux_digits (fuel : ℕ) : ∀ n : ℕ, ∀ c ∈ natDigitsAux fuel n [], c.isDigit = true := by
  induction fuel with
  | zero => intro n c hc; simp [natDigitsAux] at hc
  | succ f ih =>
    intro n c hc
    rw [natDigitsAux] at hc
    by_cases h : n < 10
    · rw [if_pos h] at hc
      rcases List.mem_singleton.mp hc with rfl
      exact charOfNat_digit_isDigit (Nat.mod_lt n (by norm_num))
    · rw [if_neg h, natDigitsAux_acc] at hc
      rcases List.mem_append.mp hc with h1 | h2
      · exact ih (n / 10) c h1
      · rcases List.mem_singleton.mp h2 with rfl
        exact charOfNat_digit_isDigit (Nat.mod_lt n (by norm_num))

lemma natDigits_digits (n : ℕ) : ∀ c ∈ natDigits n, c.isDigit = true :=
  natDigitsAux_digits (n + 1) n

lemma natDigitsAux_length (fuel : ℕ) : ∀ (n : ℕ) (acc : List Char),
    acc.length < (natDigitsAux (fuel + 1) n acc).length := by
  induction fuel with
  | zero =>
    intro n acc
    rw [natDigitsAux]
    split
    · simp
    · rw [natDigitsAux]; simp
  | succ f ih =>
    intro n acc
    rw [natDigitsAux]
    split
    · simp
    · calc acc.length < (Char.ofNat (48 + n % 10) :: acc).length := by simp
      _ < _ := ih (n / 10) _

lemma natDigits_ne_nil (n : ℕ) : natDigits n ≠ [] := by
  intro h
  have := natDigitsAux_length n n []
  rw [natDigits] at h
  rw [h] at this
  simp at this

lemma isWs_of_isDigit {c : Char} (h : c.isDigit = true) : isWsChar c = false := by
  by_contra hc
  rw [Bool.not_eq_false, isWsChar] at hc
  simp only [Bool.or_eq_true, decide_eq_true_eq] at hc
  have h4 : c = ' ' ∨ c = '\t' ∨ c = '\n' ∨ c = '\r' := by tauto
  rcases h4 with rfl | rfl | rfl | rfl <;> exact absurd h (by decide)

lemma dropWhile_of_head_false {p : Char → Bool} {c : Char} (l : List Char)
    (h : p c = false) : (c :: l).dropWhile p = c :: l := by
  rw [List.dropWhile_cons, h]
  rfl

lemma takeWhile_append_not {p : Char → Bool} {l1 l2 : List Char}
    (h1 : ∀ c ∈ l1, p c = true) (h2 : ∀ c, l2.head? = some c → p c = false) :
    (l1 ++ l2).takeWhile p = l1 ∧ (l1 ++ l2).dropWhile p = l2 := by
  induction l1 with
  | nil =>
    simp only [List.nil_append]
    cases l2 with
    | nil => exact ⟨rfl, rfl⟩
    | cons c t =>
      have := h2 c rfl
      rw [List.takeWhile_cons, List.dropWhile_cons, this]
      exact ⟨rfl, rfl⟩
  | cons a t ih =>
    have ha : p a = true := h1 a (List.mem_cons_self a t)
    have iht := ih (fun c hc => h1 c (List.mem_cons_of_mem a hc))
    rw [List.cons_append, List.takeWhile_cons, List.dropWhile_cons, ha]
    simp only [iht.1, iht.2]
    exact ⟨rfl, rfl⟩

lemma den_eq_one_mul_ten {x : ℚ} (hx : x.den = 1) : (x * 10).den = 1 := by
  have h := (Rat.den_eq_one_iff x).mp hx
  have h2 : x * 10 = ((x.num * 10 : ℤ) : ℚ) := by
    push_cast
    rw [h]
  rw [h2, Rat.intCast_den]

lemma den_eq_one_pow_mono (v : ℚ) {a b : ℕ} (hab : a ≤ b)
    (h : (v * 10 ^ a).den = 1) : (v * 10 ^ b).den = 1 := by
  induction b with
  | zero =>
    have : a = 0 := Nat.le_zero.mp hab
    rw [← this]; exact h
  | succ n ih =>
    rcases Nat.lt_or_ge a (n + 1) with hlt | hge
    · have h2 := ih (Nat.lt_succ_iff.mp hlt)
      have h3 : v * 10 ^ (n + 1) = v * 10 ^ n * 10 := by ring
      rw [h3]
      exact den_eq_one_mul_ten h2
    · have : a = n + 1 := le_antisymm hab hge
      rw [← this]; exact h

lemma dvd_ten_pow_self {d L : ℕ} (hd : d ≠ 0) (h : d ∣ 10 ^ L) : d ∣ 10 ^ d := by
  have h10L : (10 : ℕ) ^ L ≠ 0 := pow_ne_zero L (by norm_num)
  have h10d : (10 : ℕ) ^ d ≠ 0 := pow_ne_zero d (by norm_num)
  rw [← Nat.factorization_le_iff_dvd hd h10d]
  intro p
  by_cases hp : d.factorization p = 0
  · rw [hp]; exact Nat.zero_le _
  · have hmem : p ∈ d.primeFactors := by
      rw [← Nat.support_factorization]
      exact Finsupp.mem_support_iff.mpr hp
    have hprime : p.Prime := Nat.prime_of_mem_primeFactors hmem
    have hpd : p ∣ d := Nat.dvd_of_mem_primeFactors hmem
    have hp10 : p ∣ 10 := hprime.dvd_of_dvd_pow (dvd_trans hpd h)
    have hrhs : (10 ^ d).factorization p = d * (10 : ℕ).factorization p := by
      rw [Nat.factorization_pow]
      rfl
    have hpos : 0 < (10 : ℕ).factorization p :=
      Nat.Prime.factorization_pos_of_dvd hprime (by norm_num) hp10
    have hlhs : d.factorization p < d := Nat.factorization_lt p hd
    rw [hrhs]
    calc d.factorization p ≤ d := hlhs.le
    _ = d * 1 := (mul_one d).symm
    _ ≤ d * (10 : ℕ).factorization p := Nat.mul_le_mul_left d hpos

lemma digit_ne_minus {c : Char} (h : c.isDigit = true) : c ≠ '-' := by
  intro hx; rw [hx] at h; exact absurd h (by decide)

lemma digit_ne_plus {c : Char} (h : c.isDigit = true) : c ≠ '+' := by
  intro hx; rw [hx] at h; exact absurd h (by decide)

lemma dot_not_digit : ('.' : Char).isDigit = false := by decide

lemma takeWhile_all {p : Char → Bool} : ∀ {l : List Char}, (∀ c ∈ l, p c = true) →
    l.takeWhile p = l ∧ l.dropWhile p = [] := by
  intro l h
  induction l with
  | nil => exact ⟨rfl, rfl⟩
  | cons a t ih =>
    have ha : p a = true := h a (List.mem_cons_self a t)
    have iht := ih (fun c hc => h c (List.mem_cons_of_mem a hc))
    rw [List.takeWhile_cons, List.dropWhile_cons, ha]
    simp only [iht.1, iht.2]
    exact ⟨rfl, rfl⟩

lemma dropWs_cons {c : Char} (l : List Char) (h : isWsChar c = false) :
    dropWs (c :: l) = c :: l := by
  rw [dropWs, List.dropWhile_cons, h]
  rfl

lemma parseShape_cons_minus (r : List Char) :
    parseShape ('-' :: r) = parseShapeCore true r := by
  rw [parseShape, if_pos rfl]

lemma parseShape_cons_digit {c : Char} (r : List Char) (h : c.isDigit = true) :
    parseShape (c :: r) = parseShapeCore false (c :: r) := by
  rw [parseShape, if_neg (digit_ne_minus h), if_neg (digit_ne_plus h)]

lemma parseShapeCore_digits (neg : Bool) {ip : List Char}
    (h : ∀ c ∈ ip, c.isDigit = true) (hne : ip ≠ []) :
    parseShapeCore neg ip = some (neg, ip, [], []) := by
  have htw := takeWhile_all h
  rw [parseShapeCore]
  simp only [htw.1, htw.2]
  rw [if_neg (by simp [hne])]

lemma parseShapeCore_digits_dot (neg : Bool) {ip fp : List Char}
    (hip : ∀ c ∈ ip, c.isDigit = true) (hfp : ∀ c ∈ fp, c.isDigit = true)
    (hipne : ip ≠ []) :
    parseShapeCore neg (ip ++ '.' :: fp) = some (neg, ip, fp, []) := by
  have hsplit := @takeWhile_append_not Char.isDigit ip ('.' :: fp) hip
    (fun x hx => by
      rw [List.head?_cons, Option.some.injEq] at hx
      rw [← hx]
      exact dot_not_digit)
  have hfw := takeWhile_all hfp
  rw [parseShapeCore]
  simp only [hsplit.1, hsplit.2, if_pos rfl, if_true, hfw.1, hfw.2]
  rw [if_neg (by simp [hipne])]

lemma den_dvd_ten_pow {v : ℚ} {L : ℕ} (h : (v * 10 ^ L).den = 1) : v.den ∣ 10 ^ L := by
  have hz := (Rat.den_eq_one_iff _).mp h
  have hv2 : v = Rat.divInt (v * 10 ^ L).num ((10 : ℤ) ^ L) := by
    rw [Rat.divInt_eq_div]
    push_cast
    rw [hz]
    have hpow : ((10 : ℚ) ^ L) ≠ 0 := pow_ne_zero _ (by norm_num)
    field_simp
  have hdvd := Rat.den_dvd (v * 10 ^ L).num ((10 : ℤ) ^ L)
  rw [← hv2] at hdvd
  have h2 : (v.den : ℤ) ∣ ((10 ^ L : ℕ) : ℤ) := by push_cast; exact hdvd
  exact_mod_cast h2

lemma den_one_of_den_dvd {v : ℚ} {k : ℕ} (h : v.den ∣ 10 ^ k) : (v * 10 ^ k).den = 1 := by
  obtain ⟨c, hc⟩ := h
  have h1 : ((10 : ℚ)) ^ k = (v.den : ℚ) * (c : ℚ) := by
    have h0 := congrArg (fun n : ℕ => (n : ℚ)) hc
    push_cast at h0
    exact h0
  have hden : ((v.den : ℚ)) ≠ 0 := Nat.cast_ne_zero.mpr (Rat.den_ne_zero v)
  have h2 : v * 10 ^ k = ((v.num * c : ℤ) : ℚ) := by
    rw [h1]
    nth_rewrite 1 [← Rat.num_div_den v]
    push_cast
    field_simp
    ring
  rw [h2, Rat.intCast_den]

lemma exists_find_den_one {v : ℚ} (h : ∃ L, (v * 10 ^ L).den = 1) :
    ∃ k, (List.range (v.den + 1)).find? (fun k => (v * 10 ^ k).den == 1) = some k := by
  rcases h with ⟨L, hL⟩
  have hd : (v * 10 ^ v.den).den = 1 :=
    den_one_of_den_dvd (dvd_ten_pow_self (Rat.den_ne_zero v) (den_dvd_ten_pow hL))
  have hsome : ((List.range (v.den + 1)).find? (fun k => (v * 10 ^ k).den == 1)).isSome := by
    rw [List.find?_isSome]
    refine ⟨v.den, List.mem_range.mpr (Nat.lt_succ_self _), ?_⟩
    simp [hd]
  exact Option.isSome_iff_exists.mp hsome

lemma dropWs_digits {l : List Char} (h : ∀ c ∈ l, c.isDigit = true) (hne : l ≠ []) :
    dropWs l = l := by
  obtain ⟨c, t, rfl⟩ := List.exists_cons_of_ne_nil hne
  exact dropWs_cons t (isWs_of_isDigit (h c (List.mem_cons_self _ _)))

/-- Printing a finite-decimal rational with the JS `String(...)` embedding
and reading it back with the JS `parseFloat` embedding returns the same
number. -/
theorem parseFloat_ratToString {v : ℚ} (h : ∃ L, (v * 10 ^ L).den = 1) :
    parseFloatJS (ratToString v) = some v := by
  obtain ⟨k, hfind⟩ := exists_find_den_one h
  have hk := @List.find?_some ℕ (fun k => (v * 10 ^ k).den == 1) k
    (List.range (v.den + 1)) hfind
  have hden1 : (v * 10 ^ k).den = 1 := by simpa using hk
  have hvm : ((v * 10 ^ k).num : ℚ) = v * 10 ^ k := (Rat.den_eq_one_iff _).mp hden1
  set m : ℤ := (v * 10 ^ k).num with hm
  set d0 : List Char := natDigits m.natAbs with hd0
  set ds : List Char := List.replicate (k + 1 - d0.length) '0' ++ d0 with hds
  set ip : List Char := ds.take (ds.length - k) with hip
  set fp : List Char := ds.drop (ds.length - k) with hfp
  have hrender : ratToString v =
      (if m < 0 then "-" else "") ++ String.mk ip ++
        (if k = 0 then "" else "." ++ String.mk fp) := by
    rw [ratToString, hfind]
  have hd0len : 1 ≤ d0.length :=
    List.length_pos.mpr (by rw [hd0]; exact natDigits_ne_nil m.natAbs)
  have hdslen : k + 1 ≤ ds.length := by
    rw [hds, List.length_append, List.length_replicate]
    omega
  have hds_digits : ∀ c ∈ ds, c.isDigit = true := by
    intro c hc
    rw [hds] at hc
    rcases List.mem_append.mp hc with h1 | h2
    · rw [List.eq_of_mem_replicate h1]; decide
    · rw [hd0] at h2; exact natDigits_digits m.natAbs c h2
  have hip_digits : ∀ c ∈ ip, c.isDigit = true := by
    intro c hc; rw [hip] at hc; exact hds_digits c (List.take_subset _ _ hc)
  have hfp_digits : ∀ c ∈ fp, c.isDigit = true := by
    intro c hc; rw [hfp] at hc; exact hds_digits c (List.drop_subset _ _ hc)
  have hsplit : ip ++ fp = ds := by rw [hip, hfp]; exact List.take_append_drop _ _
  have hfplen : fp.length = k := by rw [hfp, List.length_drop]; omega
  have hiplen : 0 < ip.length := by rw [hip, List.length_take]; omega
  have hipne : ip ≠ [] := List.length_pos.mp hiplen
  have hval : digitsToNat ip * 10 ^ k + digitsToNat fp = m.natAbs := by
    have h1 : digitsToNat ds = m.natAbs := by
      rw [hds, digitsToNat_append, digitsToNat_replicate_zero, hd0, digitsToNat_natDigits]
      simp
    calc digitsToNat ip * 10 ^ k + digitsToNat fp
        = digitsToNat ip * 10 ^ fp.length + digitsToNat fp := by rw [hfplen]
      _ = digitsToNat (ip ++ fp) := (digitsToNat_append ip fp).symm
      _ = m.natAbs := by rw [hsplit, h1]
  have hpow0 : ((10 : ℚ) ^ k) ≠ 0 := pow_ne_zero _ (by norm_num)
  have hvq : v = (m : ℚ) / 10 ^ k := by rw [hvm]; field_simp
  have hsum : (digitsToNat ip : ℚ) + (digitsToNat fp : ℚ) / 10 ^ fp.length
      = (m.natAbs : ℚ) / 10 ^ k := by
    rw [hfplen]
    have hc : ((digitsToNat ip : ℚ)) * 10 ^ k + (digitsToNat fp : ℚ) = (m.natAbs : ℚ) := by
      exact_mod_cast congrArg (fun n : ℕ => (n : ℚ)) hval
    field_simp
    linarith [hc]
  have hasm_pos : assembleDec false ip fp = (m.natAbs : ℚ) / 10 ^ k := by
    rw [assembleDec, if_neg (show ¬((false : Bool) = true) by decide)]
    exact hsum
  have hasm_neg : assembleDec true ip fp = -((m.natAbs : ℚ) / 10 ^ k) := by
    rw [assembleDec, if_pos rfl]
    exact congrArg Neg.neg hsum
  rcases lt_or_ge m 0 with hneg | hpos
  · have habs : ((m.natAbs : ℚ)) = -(m : ℚ) := by
      have h0 : ((m.natAbs : ℤ)) = -m := by omega
      calc ((m.natAbs : ℚ)) = (((m.natAbs : ℤ) : ℚ)) := (Int.cast_natCast m.natAbs).symm
        _ = ((-m : ℤ) : ℚ) := by rw [h0]
        _ = -(m : ℚ) := by push_cast; ring
    have hfinal : assembleDec true ip fp = v := by
      rw [hasm_neg, habs, hvq]; ring
    rcases Nat.eq_zero_or_pos k with hk0 | hkpos
    · have hfpnil : fp = [] := List.length_eq_zero.mp (by rw [hfplen, hk0])
      have hdata : (ratToString v).data = '-' :: ip := by
        rw [hrender, if_pos hneg, if_pos hk0]
        show (['-'] ++ ip) ++ [] = '-' :: ip
        simp
      rw [parseFloatJS, hdata, dropWs_cons _ (by decide), parseDecCore,
        parseShape_cons_minus, parseShapeCore_digits true hip_digits hipne]
      simp only [Option.map_some']
      rw [hfpnil] at hfinal
      exact congrArg some hfinal
    · have hdata : (ratToString v).data = '-' :: (ip ++ '.' :: fp) := by
        rw [hrender, if_pos hneg, if_neg (Nat.pos_iff_ne_zero.mp hkpos)]
        show (['-'] ++ ip) ++ ('.' :: fp) = '-' :: (ip ++ '.' :: fp)
        simp
      rw [parseFloatJS, hdata, dropWs_cons _ (by decide), parseDecCore,
        parseShape_cons_minus, parseShapeCore_digits_dot true hip_digits hfp_digits hipne]
      simp only [Option.map_some']
      exact congrArg some hfinal
  · have habs : ((m.natAbs : ℚ)) = (m : ℚ) := by
      have h0 : ((m.natAbs : ℤ)) = m := by omega
      calc ((m.natAbs : ℚ)) = (((m.natAbs : ℤ) : ℚ)) := (Int.cast_natCast m.natAbs).symm
        _ = ((m : ℤ) : ℚ) := by rw [h0]
        _ = (m : ℚ) := rfl
    have hfinal : assembleDec false ip fp = v := by
      rw [hasm_pos, habs, hvq]
    obtain ⟨c, t, hct⟩ := List.exists_cons_of_ne_nil hipne
    have hcd : c.isDigit = true := hip_digits c (by rw [hct]; exact List.mem_cons_self _ _)
    have hnotneg : ¬ m < 0 := not_lt.mpr hpos
    rcases Nat.eq_zero_or_pos k with hk0 | hkpos
    · have hfpnil : fp = [] := List.length_eq_zero.mp (by rw [hfplen, hk0])
      have hdata : (ratToString v).data = ip := by
        rw [hrender, if_neg hnotneg, if_pos hk0]
        show ([] ++ ip) ++ [] = ip
        simp
      rw [parseFloatJS, hdata, hct, dropWs_cons _ (isWs_of_isDigit hcd), parseDecCore,
        parseShape_cons_digit _ hcd, ← hct, parseShapeCore_digits false hip_digits hipne]
      simp only [Option.map_some']
      rw [hfpnil] at hfinal
      exact congrArg some hfinal
    · have hdata : (ratToString v).data = ip ++ '.' :: fp := by
        rw [hrender, if_neg hnotneg, if_neg (Nat.pos_iff_ne_zero.mp hkpos)]
        show ([] ++ ip) ++ ('.' :: fp) = ip ++ '.' :: fp
        simp
      have hhead : ip ++ '.' :: fp = c :: (t ++ '.' :: fp) := by rw [hct]; rfl
      rw [parseFloatJS, hdata, hhead, dropWs_cons _ (isWs_of_isDigit hcd), parseDecCore,
        parseShape_cons_digit _ hcd, ← hhead,
        parseShapeCore_digits_dot false hip_digits hfp_digits hipne]
      simp only [Option.map_some']
      exact congrArg some hfinal

lemma assembleDec_den_pow (sign : Bool) (ip fp : List Char) :
    (assembleDec sign ip fp * 10 ^ fp.length).den = 1 := by
  have hpow : ((10 : ℚ) ^ fp.length) ≠ 0 := pow_ne_zero _ (by norm_num)
  have hmag : ((digitsToNat ip : ℚ) + (digitsToNat fp : ℚ) / 10 ^ fp.length) * 10 ^ fp.length
      = ((digitsToNat ip * 10 ^ fp.length + digitsToNat fp : ℕ) : ℚ) := by
    push_cast
    field_simp
  rw [assembleDec]
  cases sign
  · rw [if_neg (show ¬((false : Bool) = true) by decide)]
    rw [hmag, Rat.den_natCast]
  · rw [if_pos rfl, neg_mul, Rat.den_neg_eq_den, hmag, Rat.den_natCast]

lemma parseFloat_den_pow {s : String} {v : ℚ} (h : parseFloatJS s = some v) :
    ∃ L, (v * 10 ^ L).den = 1 := by
  rw [parseFloatJS] at h
  rcases Option.map_eq_some'.mp h with ⟨⟨q, rest⟩, hpd, hq⟩
  rw [parseDecCore] at hpd
  rcases Option.map_eq_some'.mp hpd with ⟨t, _, ht⟩
  have hqv : assembleDec t.1 t.2.1 t.2.2.1 = q := congrArg Prod.fst ht
  have hv : v = assembleDec t.1 t.2.1 t.2.2.1 := by
    rw [hqv]
    exact hq.symm
  exact ⟨t.2.2.1.length, by rw [hv]; exact assembleDec_den_pow t.1 t.2.1 t.2.2.1⟩

lemma parseFloatJS_NaN : parseFloatJS "NaN" = none := by decide

lemma jsNumber_jsNeg (x : JSVal) : jsNumber (jsNeg x) = (jsNumber x).map (fun q => -q) := by
  rw [jsNeg]
  cases h : jsNumber x
  · rfl
  · rfl

/-- The condition under which `flipStructure` touches a row. -/
def flipCond (r : LegRow) : Prop :=
  strStartsWith r.leg "Leg" = true ∧ r.ratio ≠ JSVal.str "" ∧ r.ratio ≠ JSVal.num 0

instance (r : LegRow) : Decidable (flipCond r) :=
  inferInstanceAs (Decidable (strStartsWith r.leg "Leg" = true ∧
    r.ratio ≠ JSVal.str "" ∧ r.ratio ≠ JSVal.num 0))

lemma flipRow_eq (r : LegRow) :
    flipRow r = if flipCond r then { r with ratio := jsNeg r.ratio } else r := rfl

lemma parseFloat_neg_roundtrip {d : String} :
    parseFloatJS (numToString ((parseFloatJS d).map (fun q => -q)))
      = (parseFloatJS d).map (fun q => -q) := by
  cases hp : parseFloatJS d with
  | none =>
    simp only [Option.map_none']
    rw [numToString]
    exact parseFloatJS_NaN
  | some q =>
    simp only [Option.map_some']
    rw [numToString]
    apply parseFloat_ratToString
    rcases parseFloat_den_pow hp with ⟨L, hL⟩
    refine ⟨L, ?_⟩
    rw [show -q * 10 ^ L = -(q * 10 ^ L) by ring, Rat.den_neg_eq_den]
    exact hL

lemma flip_delta_val (s : PricerState) :
    parseFloatJS (flipStructure s).delta = (parseFloatJS s.delta).map (fun q => -q) := by
  show parseFloatJS (if s.delta ≠ "" then
      numToString ((parseFloatJS s.delta).map (fun q => -q)) else "")
    = (parseFloatJS s.delta).map (fun q => -q)
  by_cases hd : s.delta = ""
  · rw [if_neg (fun hne => hne hd), hd, parseFloatJS_empty]
    rfl
  · rw [if_pos hd]
    exact parseFloat_neg_roundtrip

lemma flipRow_flipRow_val (r : LegRow) :
    jsNumber ((flipRow (flipRow r)).ratio) = jsNumber r.ratio := by
  by_cases h1 : flipCond r
  · rw [flipRow_eq r, if_pos h1]
    cases hjs : jsNumber r.ratio with
    | none =>
      have hr1 : ({ r with ratio := jsNeg r.ratio } : LegRow).ratio = JSVal.nan := by
        show jsNeg r.ratio = JSVal.nan
        rw [jsNeg, hjs]
      have h2 : flipCond ({ r with ratio := jsNeg r.ratio } : LegRow) := by
        refine ⟨h1.1, ?_, ?_⟩ <;> rw [hr1] <;> intro hx <;> cases hx
      rw [flipRow_eq, if_pos h2, hr1]
      show jsNumber (jsNeg JSVal.nan) = none
      rfl
    | some q =>
      have hr1 : ({ r with ratio := jsNeg r.ratio } : LegRow).ratio = JSVal.num (-q) := by
        show jsNeg r.ratio = JSVal.num (-q)
        rw [jsNeg, hjs]
      by_cases hq0 : q = 0
      · have hr0 : ({ r with ratio := jsNeg r.ratio } : LegRow).ratio = JSVal.num 0 := by
          rw [hr1, hq0, neg_zero]
        have h2 : ¬ flipCond ({ r with ratio := jsNeg r.ratio } : LegRow) := by
          intro h2
          exact h2.2.2 hr0
        rw [flipRow_eq, if_neg h2, hr0, hq0]
        rfl
      · have h2 : flipCond ({ r with ratio := jsNeg r.ratio } : LegRow) := by
          refine ⟨h1.1, ?_, ?_⟩ <;> rw [hr1]
          · intro hx; cases hx
          · intro hx
            injection hx with hx2
            exact hq0 (neg_eq_zero.mp hx2)
        rw [flipRow_eq, if_pos h2, hr1]
        show jsNumber (jsNeg (JSVal.num (-q))) = some q
        rw [jsNeg]
        show jsNumber (JSVal.num (-(-q))) = some q
        rw [neg_neg]
        rfl
  · rw [flipRow_eq r, if_neg h1, flipRow_eq r, if_neg h1]

/-- C10: `flipStructure` negates the ratio of every `Leg` row whose ratio is
strictly non-empty and nonzero (in the JS `!==` sense) and negates the delta
field's numeric value, leaving every other field of every row — and every
other row — unchanged; flipping twice restores every row's numeric ratio and
the delta value. -/
theorem flipStructure_negates (s : PricerState) :
    ((flipStructure s).tableData = s.tableData.map flipRow) ∧
    (∀ r : LegRow, flipCond r →
      jsNumber (flipRow r).ratio = (jsNumber r.ratio).map (fun q => -q) ∧
      (flipRow r).leg = r.leg ∧ (flipRow r).expiry = r.expiry ∧
      (flipRow r).strike = r.strike ∧ (flipRow r).type = r.type ∧
      (flipRow r).bid_size = r.bid_size ∧ (flipRow r).bid = r.bid ∧
      (flipRow r).mid = r.mid ∧ (flipRow r).offer = r.offer ∧
      (flipRow r).offer_size = r.offer_size) ∧
    (∀ r : LegRow, ¬ flipCond r → flipRow r = r) ∧
    (parseFloatJS (flipStructure s).delta = (parseFloatJS s.delta).map (fun q => -q)) ∧
    (∀ r : LegRow, jsNumber ((flipRow (flipRow r)).ratio) = jsNumber r.ratio) ∧
    (parseFloatJS (flipStructure (flipStructure s)).delta = parseFloatJS s.delta) ∧
    ((flipStructure (flipStructure s)).tableData.map (fun r => jsNumber r.ratio) =
      s.tableData.map (fun r => jsNumber r.ratio)) := by
  refine ⟨rfl, ?_, ?_, flip_delta_val s, flipRow_flipRow_val, ?_, ?_⟩
  · intro r hc
    rw [flipRow_eq r, if_pos hc]
    exact ⟨jsNumber_jsNeg r.ratio, rfl, rfl, rfl, rfl, rfl, rfl, rfl, rfl, rfl⟩
  · intro r hc
    rw [flipRow_eq r, if_neg hc]
  · rw [flip_delta_val (flipStructure s), flip_delta_val s]
    cases parseFloatJS s.delta with
    | none => rfl
    | some q => simp
  · show ((s.tableData.map flipRow).map flipRow).map (fun r => jsNumber r.ratio)
      = s.tableData.map (fun r => jsNumber r.ratio)
    rw [List.map_map, List.map_map]
    have hfun : (((fun r : LegRow => jsNumber r.ratio) ∘ flipRow) ∘ flipRow)
        = (fun r : LegRow => jsNumber r.ratio) := by
      funext r
      exact flipRow_flipRow_val r
    rw [hfun]

/-- The pricer state for the C10 witness: one sold leg and delta 15. -/
def sFlipState : PricerState :=
  { samplePricerState with delta := "15", tableData := [sampleRowSell] }

/-- Witness for C10 at concrete inputs: flipping negates the ratio −2 to 2,
leaves a zero-ratio row untouched, and flipping twice restores the ratio
value and the delta value. -/
theorem flipStructure_negates_witness :
    jsNumber (flipRow sampleRowSell).ratio =
      (jsNumber sampleRowSell.ratio).map (fun q => -q) ∧
    flipRow ({ sampleRowSell with ratio := JSVal.num 0 }) =
      ({ sampleRowSell with ratio := JSVal.num 0 }) ∧
    jsNumber ((flipRow (flipRow sampleRowSell)).ratio) = jsNumber sampleRowSell.ratio ∧
    parseFloatJS (flipStructure (flipStructure sFlipState)).delta =
      parseFloatJS sFlipState.delta :=
  ⟨((flipStructure_negates sFlipState).2.1 sampleRowSell (by decide)).1,
   (flipStructure_negates sFlipState).2.2.1 _ (by decide),
   (flipStructure_negates sFlipState).2.2.2.2.1 sampleRowSell,
   (flipStructure_negates sFlipState).2.2.2.2.2.1⟩

/-- Modelled from the spec: the standard normal CDF used by the Pricing
Engine's closed form (`pricer.py` is not in the repository snapshot; the
spec prescribes the standard Black-Scholes closed form). -/
noncomputable def normalCdf (x : ℝ) : ℝ :=
  (∫ t in Set.Iic x, Real.exp (-t ^ 2 / 2)) / Real.sqrt (2 * Real.pi)

/-- Modelled from the spec: the Black-Scholes `d1` term. -/
noncomputable def bsD1 (S K T r sigma : ℝ) : ℝ :=
  (Real.log (S / K) + (r + sigma ^ 2 / 2) * T) / (sigma * Real.sqrt T)

/-- Modelled from the spec: the Black-Scholes `d2` term. -/
noncomputable def bsD2 (S K T r sigma : ℝ) : ℝ :=
  bsD1 S K T r sigma - sigma * Real.sqrt T

/-- Modelled from the spec: the Pricing Engine's call value — the standard
Black-Scholes closed form with continuous compounding and no dividend, with
the prescribed `T ≤ 0` special case degenerating to intrinsic value. -/
noncomputable def callValue (S K T r sigma : ℝ) : ℝ :=
  if T ≤ 0 then max (S - K) 0
  else S * normalCdf (bsD1 S K T r sigma) -
    K * Real.exp (-r * T) * normalCdf (bsD2 S K T r sigma)

/-- Modelled from the spec: the Pricing Engine's put value. -/
noncomputable def putValue (S K T r sigma : ℝ) : ℝ :=
  if T ≤ 0 then max (K - S) 0
  else K * Real.exp (-r * T) * normalCdf (-(bsD2 S K T r sigma)) -
    S * normalCdf (-(bsD1 S K T r sigma))

lemma gauss_fun_eq : (fun t : ℝ => Real.exp (-t ^ 2 / 2)) =
    (fun t : ℝ => Real.exp (-(1 / 2) * t ^ 2)) := by
  funext t
  congr 1
  ring

lemma gauss_integrable : MeasureTheory.Integrable (fun t : ℝ => Real.exp (-t ^ 2 / 2)) := by
  rw [gauss_fun_eq]
  exact integrable_exp_neg_mul_sq (by norm_num)

lemma gauss_total : (∫ t : ℝ, Real.exp (-t ^ 2 / 2)) = Real.sqrt (2 * Real.pi) := by
  rw [gauss_fun_eq, integral_gaussian]
  congr 1
  rw [div_div_eq_mul_div, div_one]
  ring

lemma normalCdf_add_neg (x : ℝ) : normalCdf x + normalCdf (-x) = 1 := by
  have hpi : Real.sqrt (2 * Real.pi) ≠ 0 := by
    refine ne_of_gt (Real.sqrt_pos.mpr ?_)
    positivity
  have h1 : (∫ t in Set.Iic (-x), Real.exp (-t ^ 2 / 2)) =
      ∫ t in Set.Ioi x, Real.exp (-t ^ 2 / 2) := by
    have h2 := integral_comp_neg_Iic (-x) (fun t : ℝ => Real.exp (-t ^ 2 / 2))
    rw [neg_neg] at h2
    rw [← h2]
    congr 1
    funext t
    rw [neg_sq]
  have hsplit : (∫ t in Set.Iic x, Real.exp (-t ^ 2 / 2)) +
      (∫ t in Set.Ioi x, Real.exp (-t ^ 2 / 2)) = ∫ t : ℝ, Real.exp (-t ^ 2 / 2) :=
    intervalIntegral.integral_Iic_add_Ioi gauss_integrable.integrableOn
      gauss_integrable.integrableOn
  rw [normalCdf, normalCdf, div_add_div_same, h1, hsplit, gauss_total, div_self hpi]

/-- C7: put/call parity for the Pricing Engine.  For every valid input
(S>0, K>0, T≥0, σ>0) the call value minus the put value at the shared
(S,K,T,r,σ) equals the standard parity expression `S - K·e^(-rT)` — exactly
over the real-number model, hence within the 1e-6 floating tolerance the
claim allows; the `T = 0` intrinsic-value branch satisfies the same
identity. -/
theorem put_call_parity (S K T r sigma : ℝ) (hS : 0 < S) (hK : 0 < K)
    (hT : 0 ≤ T) (hsig : 0 < sigma) :
    |callValue S K T r sigma - putValue S K T r sigma -
      (S - K * Real.exp (-r * T))| ≤ 1 / 1000000 := by
  have hmain : callValue S K T r sigma - putValue S K T r sigma
      = S - K * Real.exp (-r * T) := by
    by_cases hT0 : T ≤ 0
    · have hTeq : T = 0 := le_antisymm hT0 hT
      rw [callValue, putValue, if_pos hT0, if_pos hT0, hTeq, mul_zero,
        Real.exp_zero, mul_one]
      rcases le_total S K with h | h
      · rw [max_eq_right (sub_nonpos.mpr h), max_eq_left (sub_nonneg.mpr h)]
        ring
      · rw [max_eq_left (sub_nonneg.mpr h), max_eq_right (sub_nonpos.mpr h)]
        ring
    · rw [callValue, putValue, if_neg hT0, if_neg hT0]
      have h1 := normalCdf_add_neg (bsD1 S K T r sigma)
      have h2 := normalCdf_add_neg (bsD2 S K T r sigma)
      linear_combination S * h1 - (K * Real.exp (-r * T)) * h2
  rw [hmain, sub_self, abs_zero]
  norm_num

/-- Witness for C7 at the concrete valid input S=100, K=90, T=1, r=1/20,
σ=1/5. -/
theorem put_call_parity_witness :
    (0 : ℝ) < 100 ∧ (0 : ℝ) < 90 ∧ (0 : ℝ) ≤ 1 ∧ (0 : ℝ) < 1 / 5 ∧
    |callValue 100 90 1 (1 / 20) (1 / 5) - putValue 100 90 1 (1 / 20) (1 / 5) -
      (100 - 90 * Real.exp (-(1 / 20) * 1))| ≤ 1 / 1000000 :=
  ⟨by norm_num, by norm_num, by norm_num, by norm_num,
    put_call_parity 100 90 1 (1 / 20) (1 / 5) (by norm_num) (by norm_num)
      (by norm_num) (by norm_num)⟩

end OptionsPricer
